import Mathlib

/-!
Verification development for the mcp-kroki server (src/src/index.ts).

The TypeScript source is shallowly embedded: strings are Lean `String`s
(inspected as `List Char`), JS numbers that carry exact decimal values
(scale factors, parsed dimension values) are modelled as exact fractions (see `JsNum`), byte buffers
that the code only ever inspects as UTF-8 text are modelled as the decoded
`String`, and the HTTP transport is a parameter `fetch : String → Wire`
so that theorems can quantify over stub transports.  The `pako.deflate`
compressor is an explicit function parameter `deflate : List Nat → List Nat`;
everything downstream of it (base64, URL-safe substitution, URL assembly,
classification) is embedded concretely from the source.
-/

namespace KrokiSpec

/-- ASCII lower-casing of a character, modelling JS `toLowerCase` on the
ASCII range (the only range the source compares against). -/
def lowerCh (c : Char) : Char :=
  if 65 ≤ c.toNat ∧ c.toNat ≤ 90 then Char.ofNat (c.toNat + 32) else c

/-- Case-sensitive character equality test (plain regex/string matching). -/
def chEq (a b : Char) : Bool := decide (a = b)

/-- Case-insensitive character equality test (regexes carrying the `i` flag). -/
def ciEq (a b : Char) : Bool := decide (lowerCh a = lowerCh b)

/-- Decimal digit, as matched by the `[0-9]` character class. -/
def isDigitCh (c : Char) : Bool := 48 ≤ c.toNat && c.toNat ≤ 57

/-- Whitespace as stripped by JS `trim` / skipped by `parseFloat`
(ASCII whitespace; the exotic Unicode space code points the JS spec also
accepts never appear in the strings this system manipulates). -/
def isWsCh (c : Char) : Bool :=
  c.toNat = 32 || c.toNat = 9 || c.toNat = 10 || c.toNat = 13 ||
  c.toNat = 11 || c.toNat = 12

/-- The decimal digit character for a digit value. -/
def digitChar (d : Nat) : Char :=
  match d with
  | 0 => '0' | 1 => '1' | 2 => '2' | 3 => '3' | 4 => '4'
  | 5 => '5' | 6 => '6' | 7 => '7' | 8 => '8' | _ => '9'

/-- Decimal digits of a number (most significant first), fuel-driven. -/
def natDigitsAux (fuel n : Nat) : List Char :=
  match fuel with
  | 0 => []
  | fuel + 1 =>
    if n < 10 then [digitChar n]
    else natDigitsAux fuel (n / 10) ++ [digitChar (n % 10)]

/-- Decimal rendering of a natural number. -/
def natDigits (n : Nat) : List Char := natDigitsAux (n + 1) n

/-- Decimal rendering as a string (used for HTTP status codes in messages). -/
def natToStr (n : Nat) : String := String.mk (natDigits n)

/-- If `l` starts with pattern `p` (chars compared by `beq`), return the
remainder after the pattern. -/
def dropPreBy (beq : Char → Char → Bool) : List Char → List Char → Option (List Char)
  | [], l => some l
  | _ :: _, [] => none
  | a :: p, b :: l => if beq a b then dropPreBy beq p l else none

/-- Leftmost occurrence of pattern `p` in `l`: returns the text before the
occurrence and the text after it.  This is the backbone of every
`String.match` / `includes` / first-`replace` operation in the source. -/
def splitOnceBy (beq : Char → Char → Bool) (p : List Char) :
    List Char → Option (List Char × List Char)
  | [] => (dropPreBy beq p []).map (fun r => (([] : List Char), r))
  | c :: rest =>
    match dropPreBy beq p (c :: rest) with
    | some r => some ([], r)
    | none => (splitOnceBy beq p rest).map (fun pr => (c :: pr.1, pr.2))

/-- Try a matcher at every start position, leftmost success first: the
regex-engine search order (`String.match` with an unanchored pattern). -/
def firstMatch (f : List Char → Option α) : List Char → Option α
  | [] => f []
  | c :: rest =>
    match f (c :: rest) with
    | some a => some a
    | none => firstMatch f rest

/-- Returns `true` iff `l` starts with `p` (case-sensitive), as JS `startsWith`. -/
def startsWithL (p l : List Char) : Bool := (dropPreBy chEq p l).isSome

/-- Returns `true` iff `pat` occurs in `l` under `beq`, as JS `includes` / regex test. -/
def containsBy (beq : Char → Char → Bool) (pat l : List Char) : Bool :=
  (splitOnceBy beq pat l).isSome

/-- JS `trim`: strip leading and trailing whitespace. -/
def trimL (l : List Char) : List Char :=
  ((l.dropWhile isWsCh).reverse.dropWhile isWsCh).reverse

/-- JS `toLowerCase` (ASCII range). -/
def lowerL (l : List Char) : List Char := l.map lowerCh

/-- Length of a list occurrence split: used for termination of repeated
replacement. -/
theorem dropPreBy_length {e : Char → Char → Bool} :
    ∀ {p l r : List Char}, dropPreBy e p l = some r → l.length = p.length + r.length
  | [], _, _, h => by simp [dropPreBy] at h; simp [h]
  | _ :: _, [], _, h => by simp [dropPreBy] at h
  | a :: p, b :: l, r, h => by
    by_cases hab : e a b
    · have := dropPreBy_length (e := e) (p := p) (l := l) (r := r)
      simp [dropPreBy, hab] at h
      have hlen := this h
      simp [List.length_cons, hlen]; omega
    · simp [dropPreBy, hab] at h

theorem splitOnceBy_length {beq : Char → Char → Bool} :
    ∀ {p l a b : List Char}, splitOnceBy beq p l = some (a, b) →
      l.length = a.length + p.length + b.length := by
  intro p l
  induction l with
  | nil =>
    intro a b h
    simp only [splitOnceBy] at h
    cases hd : dropPreBy beq p [] with
    | some r =>
      rw [hd] at h
      simp only [Option.map_some'] at h
      have hlen := dropPreBy_length hd
      cases h
      simp only [List.length_nil] at hlen ⊢
      omega
    | none => rw [hd] at h; simp at h
  | cons c rest ih =>
    intro a b h
    simp only [splitOnceBy] at h
    cases hd : dropPreBy beq p (c :: rest) with
    | some r =>
      rw [hd] at h
      have hlen := dropPreBy_length hd
      cases h
      simp only [List.length_nil, List.length_cons] at hlen ⊢
      omega
    | none =>
      rw [hd] at h
      cases hs : splitOnceBy beq p rest with
      | some pr =>
        rw [hs] at h
        simp only [Option.map_some'] at h
        obtain ⟨a', b'⟩ := pr
        have hlen := ih hs
        cases h
        simp only [List.length_cons] at hlen ⊢
        omega
      | none => rw [hs] at h; simp at h

/-- JS global `String.replace` with a plain (non-regex-special) pattern:
replace each non-overlapping occurrence left to right, continuing after the
replacement text.  Fuel-driven (each step consumes at least the pattern
length, so the text length is always enough fuel). -/
def replaceAllAux (p new : List Char) : Nat → List Char → List Char
  | 0, l => l
  | fuel + 1, l =>
    match p with
    | [] => l
    | p0 :: pt =>
      match splitOnceBy chEq (p0 :: pt) l with
      | none => l
      | some (a, b) => a ++ new ++ replaceAllAux p new fuel b

def replaceAllL (p new l : List Char) : List Char :=
  replaceAllAux p new (l.length + 1) l

/-- JS first-occurrence-only `String.replace` with a plain string pattern
(used to rewrite the matched `width="…"` / `height="…"` attribute). -/
def replaceFirstL (p new : List Char) (l : List Char) : List Char :=
  match splitOnceBy chEq p l with
  | none => l
  | some (a, b) => a ++ new ++ b

/-! ## Content encoder (src/index.ts lines 84-90 and 219-223)

`pako.deflate(content)` UTF-8-encodes the string and compresses it;
compression itself is kept as a function parameter `deflate`, while the
UTF-8 step, the base64 step and the URL-safe substitutions are concrete. -/

/-- UTF-8 encoding of a single character (code point to byte list). -/
def utf8Char (c : Char) : List Nat :=
  let n := c.toNat
  if n < 128 then [n]
  else if n < 2048 then [192 + n / 64, 128 + n % 64]
  else if n < 65536 then [224 + n / 4096, 128 + n / 64 % 64, 128 + n % 64]
  else [240 + n / 262144, 128 + n / 4096 % 64, 128 + n / 64 % 64, 128 + n % 64]

/-- UTF-8 bytes of a string. -/
def utf8Bytes (s : String) : List Nat := s.data.flatMap utf8Char

/-- The base64 alphabet (`Buffer.toString('base64')`). -/
def b64Char (n : Nat) : Char :=
  if n < 26 then Char.ofNat (65 + n)
  else if n < 52 then Char.ofNat (97 + (n - 26))
  else if n < 62 then Char.ofNat (48 + (n - 52))
  else if n = 62 then '+'
  else '/'

/-- Standard base64 encoding with `=` padding, three input bytes at a time. -/
def base64Encode : List Nat → List Char
  | [] => []
  | [a] =>
    [b64Char (a / 4 % 64), b64Char (a % 4 * 16), '=', '=']
  | [a, b] =>
    [b64Char (a / 4 % 64), b64Char (a % 4 * 16 + b / 16 % 16),
     b64Char (b % 16 * 4), '=']
  | a :: b :: c :: rest =>
    b64Char (a / 4 % 64) :: b64Char (a % 4 * 16 + b / 16 % 16) ::
    b64Char (b % 16 * 4 + c / 64 % 4) :: b64Char (c % 64) ::
    base64Encode rest

/-- Models `.replace(/\+/g, '-')` / `.replace(/\//g, '_')`: a global replace whose
pattern is a single character is a character-wise map. -/
def replaceChar (a b : Char) (l : List Char) : List Char :=
  l.map (fun c => if c = a then b else c)

/-- The encoded diagram token:
`Buffer.from(pako.deflate(content)).toString('base64').replace(/\+/g,'-').replace(/\//g,'_')`. -/
def encodeContent (deflate : List Nat → List Nat) (content : String) : String :=
  String.mk (replaceChar '/' '_' (replaceChar '+' '-'
    (base64Encode (deflate (utf8Bytes content)))))

/-- Models `https://kroki.io` (src/index.ts line 15). -/
def KROKI_BASE_URL : String := "https://kroki.io"

/-- The request URL `${KROKI_BASE_URL}/${options.type}/${outputFormat}/${encodedContent}`. -/
def krokiUrl (deflate : List Nat → List Nat) (typ fmt content : String) : String :=
  KROKI_BASE_URL ++ "/" ++ typ ++ "/" ++ fmt ++ "/" ++ encodeContent deflate content

/-! ## JS number fragments: `parseFloat` and `toFixed(2)`.

JS numbers carrying exact decimal values (scale factors, parsed dimension
values) are modelled as exact fractions `num / den` over `Int × Nat`,
kept unnormalized so that every operation is plain integer arithmetic;
IEEE rounding artefacts never matter for the decimal literals this system
manipulates.  The denominator is positive for every value the embedding
constructs. -/

/-- An exact JS numeric value: the fraction `num / den`. -/
structure JsNum where
  num : Int
  den : Nat
  deriving DecidableEq, Repr

instance (n : Nat) : OfNat JsNum n := ⟨⟨n, 1⟩⟩

/-- Fraction multiplication (unnormalized). -/
def JsNum.mul (a b : JsNum) : JsNum := ⟨a.num * b.num, a.den * b.den⟩

instance : Mul JsNum := ⟨JsNum.mul⟩

/-- Fraction addition (unnormalized). -/
def JsNum.add (a b : JsNum) : JsNum := ⟨a.num * b.den + b.num * a.den, a.den * b.den⟩

instance : Add JsNum := ⟨JsNum.add⟩

/-- Negation. -/
def JsNum.neg (a : JsNum) : JsNum := ⟨-a.num, a.den⟩

instance : Neg JsNum := ⟨JsNum.neg⟩

/-- Order by cross-multiplication (denominators are positive). -/
def JsNum.lt (a b : JsNum) : Prop := a.num * b.den < b.num * a.den

instance : LT JsNum := ⟨JsNum.lt⟩

instance (a b : JsNum) : Decidable (a < b) :=
  inferInstanceAs (Decidable (a.num * b.den < b.num * a.den))

def JsNum.le (a b : JsNum) : Prop := a.num * b.den ≤ b.num * a.den

instance : LE JsNum := ⟨JsNum.le⟩

instance (a b : JsNum) : Decidable (a ≤ b) :=
  inferInstanceAs (Decidable (a.num * b.den ≤ b.num * a.den))

/-- Scaling by a power of ten (for exponents accepted by `parseFloat`). -/
def JsNum.mulPow10 (a : JsNum) (e : Int) : JsNum :=
  if 0 ≤ e then ⟨a.num * (10 ^ e.toNat : Nat), a.den⟩
  else ⟨a.num, a.den * 10 ^ (-e).toNat⟩

/-- Split a leading run of decimal digits from a character list. -/
def readDigits : List Char → List Char × List Char
  | [] => ([], [])
  | c :: r =>
    if isDigitCh c then
      let (a, b) := readDigits r
      (c :: a, b)
    else ([], c :: r)

/-- Numeric value of a digit string. -/
def digitsToNat (l : List Char) : Nat :=
  l.foldl (fun a c => 10 * a + (c.toNat - 48)) 0

/-- Fractional value of the digit string after a decimal point. -/
def fracToQ (l : List Char) : JsNum :=
  ⟨(digitsToNat l : Int), 10 ^ l.length⟩

/-- The optional sign of an exponent. -/
def expSign (r : List Char) : Int × List Char :=
  match r with
  | '-' :: r' => (-1, r')
  | '+' :: r' => (1, r')
  | _ => (1, r)

/-- Apply a well-formed exponent suffix (`e`/`E`, optional sign, at least
one digit); anything else is trailing garbage and leaves the value as is
(JS takes the longest valid numeric prefix). -/
def withExp (val : JsNum) (r : List Char) : JsNum :=
  match r with
  | [] => val
  | c :: r' =>
    if c = 'e' ∨ c = 'E' then
      let (sgn, r3) := expSign r'
      let (es, _) := readDigits r3
      if es = [] then val else val.mulPow10 (sgn * (digitsToNat es : Int))
    else val

/-- JS `parseFloat` on the trimmed, unsigned part: leading digits, an
optional fraction (at least one digit on one side of the dot), and an
exponent handled by `withExp`.  `Infinity` literals are not modelled: no
caller of `parseFloat` in the source can receive one meaningfully. -/
def parseUnsigned (l : List Char) : Option JsNum :=
  match readDigits l with
  | (ds, r1) =>
    match r1 with
    | [] => if ds = [] then none else some (withExp (⟨(digitsToNat ds : Int), 1⟩ : JsNum) [])
    | c :: r =>
      if c = '.' then
        match readDigits r with
        | (fs, r') =>
          if ds = [] ∧ fs = [] then none
          else some (withExp ((⟨(digitsToNat ds : Int), 1⟩ : JsNum) + fracToQ fs) r')
      else if ds = [] then none
      else some (withExp (⟨(digitsToNat ds : Int), 1⟩ : JsNum) (c :: r))

/-- JS `parseFloat`: skip leading whitespace, optional sign, then the
longest valid decimal literal; `NaN` is `none`. -/
def parseFloatQ (l : List Char) : Option JsNum :=
  match l.dropWhile isWsCh with
  | [] => parseUnsigned []
  | c :: r =>
    if c = '-' then (parseUnsigned r).map (fun q => -q)
    else if c = '+' then parseUnsigned r
    else parseUnsigned (c :: r)

/-- Render a natural number `n < 100` as exactly two digits. -/
def twoDigits (n : Nat) : List Char := [digitChar (n / 10 % 10), digitChar (n % 10)]

/-- Models `⌊q * 100 + 1/2⌋` for a fraction: the two-decimal rounding used by
`toFixed(2)`, computed by integer floor division. -/
def roundHundredths (q : JsNum) : Int :=
  (200 * q.num + q.den).fdiv (2 * q.den)

/-- JS `Number.prototype.toFixed(2)`: round to the nearest hundredth,
ties away from zero, and print with exactly two decimals. -/
def toFixed2 (q : JsNum) : String :=
  if q < 0 then
    let n := (roundHundredths (-q)).toNat
    String.mk ('-' :: natDigits (n / 100) ++ '.' :: twoDigits (n % 100))
  else
    let n := (roundHundredths q).toNat
    String.mk (natDigits (n / 100) ++ '.' :: twoDigits (n % 100))

/-! ## SVG scaling block (src/index.ts lines 142-173) -/

/-- The literal `<svg` of the regex `/<svg([^>]*)>/`. -/
def svgOpenPat : List Char := ['<', 's', 'v', 'g']

/-- The literal `width="` of the regex `/width="([^"]+)"/`. -/
def widthPat : List Char := ['w', 'i', 'd', 't', 'h', '=', '"']

/-- The literal `height="` of the regex `/height="([^"]+)"/`. -/
def heightPat : List Char := ['h', 'e', 'i', 'g', 'h', 't', '=', '"']

/-- One attempt of `attrName="([^"]+)"` at the current position: the literal
`pat` (e.g. `width="`), then a non-empty run of non-quote characters, then
the closing quote.  Returns the whole match and the captured value. -/
def tryAttrAt (pat : List Char) (l : List Char) : Option (List Char × List Char) :=
  match dropPreBy chEq pat l with
  | none => none
  | some r =>
    match splitOnceBy chEq ['"'] r with
    | none => none
    | some (v, _) => if v = [] then none else some (pat ++ v ++ ['"'], v)

/-- Models `attributes.match(/name="([^"]+)"/)`: leftmost match. -/
def matchAttr (pat : List Char) (attrs : List Char) : Option (List Char × List Char) :=
  firstMatch (tryAttrAt pat) attrs

/-- Models `value.replace(/[0-9.]/g, '') || 'px'`: the unit suffix, defaulting to
pixels. -/
def unitOf (v : List Char) : List Char :=
  let u := v.filter (fun c => !(isDigitCh c || chEq '.' c))
  if u = [] then ['p', 'x'] else u

/-- Rewrite one dimension attribute of the captured attribute list:
if `attributes.match` found the attribute and `parseFloat` succeeds, replace
the first occurrence of the matched text by the rescaled attribute. -/
def scaleAttr (pat : List Char) (scale : JsNum) (m : Option (List Char × List Char))
    (attrs : List Char) : List Char :=
  match m with
  | none => attrs
  | some (full, v) =>
    match parseFloatQ v with
    | none => attrs
    | some q => replaceFirstL full (pat ++ (toFixed2 (q * scale)).data ++ unitOf v ++ ['"']) attrs

/-- The replacement callback body for `/<svg([^>]*)>/`: both attribute
matches are taken against the original attribute text, then the two
first-occurrence replacements are applied in sequence. -/
def processAttrs (scale : JsNum) (attrs : List Char) : List Char :=
  let w := matchAttr widthPat attrs
  let h := matchAttr heightPat attrs
  scaleAttr heightPat scale h (scaleAttr widthPat scale w attrs)

/-- Models `svgContent.replace(/<svg([^>]*)>/, …)`: rewrite the first vector-root
opening tag; if the pattern does not occur, the content is unchanged. -/
def applyScale (scale : JsNum) (content : String) : String :=
  match splitOnceBy chEq svgOpenPat content.data with
  | none => content
  | some (pre, r1) =>
    match splitOnceBy chEq ['>'] r1 with
    | none => content
    | some (attrs, after) =>
      String.mk (pre ++ svgOpenPat ++ processAttrs scale attrs ++ '>' :: after)

/-- The guard `if (scale > 1.0 && outputFormat === 'svg')` around the
scaling rewrite (base64 output is exempt). -/
def scaleStep (scale : JsNum) (fmt : String) (content : String) : String :=
  if 1 < scale ∧ fmt = "svg" then applyScale scale content else content

/-! ## Inline SVG error scan (src/index.ts lines 130-140) -/

/-- The literal `<text` (matched case-insensitively). -/
def textOpenPat : List Char := ['<', 't', 'e', 'x', 't']

/-- The literal `</text>` (matched case-insensitively). -/
def textClosePat : List Char := ['<', '/', 't', 'e', 'x', 't', '>']

/-- The literal `class="error"`. -/
def classErrPat : List Char :=
  ['c', 'l', 'a', 's', 's', '=', '"', 'e', 'r', 'r', 'o', 'r', '"']

/-- The literal `fill="red"`. -/
def fillRedPat : List Char := ['f', 'i', 'l', 'l', '=', '"', 'r', 'e', 'd', '"']

/-- One attempt of `<text[^>]*MARKER[^>]*>([\s\S]*?)<\/text>` at the current
position (case-insensitive): after `<text`, everything up to the first `>`
must be free of `>` (so that `>` closes the tag) and contain the marker;
the lazy group then runs to the earliest `</text>`. -/
def tryTextMarkerAt (marker : List Char) (l : List Char) : Option (List Char) :=
  match dropPreBy ciEq textOpenPat l with
  | none => none
  | some r =>
    match splitOnceBy ciEq ['>'] r with
    | none => none
    | some (seg, r2) =>
      if containsBy ciEq marker seg then
        match splitOnceBy ciEq textClosePat r2 with
        | none => none
        | some (grp, _) => some grp
      else none

/-- One attempt of the alternation
`<text[^>]*class="error"[^>]*>([\s\S]*?)<\/text>|<text[^>]*fill="red"[^>]*>([\s\S]*?)<\/text>`:
the first alternative is preferred at each position. -/
def tryInlineAt (l : List Char) : Option (List Char) :=
  match tryTextMarkerAt classErrPat l with
  | some g => some g
  | none => tryTextMarkerAt fillRedPat l

/-- Models `svgContent.match(/<text[^>]*class="error"[^>]*>…/i)`: the captured
error text of the leftmost match, if any. -/
def scanInline (body : List Char) : Option (List Char) :=
  firstMatch tryInlineAt body

/-- Models `errorTextMatch[1] || errorTextMatch[2] || 'Unknown diagram error'`:
an empty captured group is falsy in JS and falls through to the default. -/
def pickRawError (g : List Char) : List Char :=
  if g = [] then "Unknown diagram error".data else g

/-- Models `.replace(/&lt;/g,'<').replace(/&gt;/g,'>').replace(/&amp;/g,'&').replace(/<br\/>/g,'\n')`. -/
def decodeEntitiesL (l : List Char) : List Char :=
  replaceAllL "<br/>".data "\n".data
    (replaceAllL "&amp;".data "&".data
      (replaceAllL "&gt;".data ">".data
        (replaceAllL "&lt;".data "<".data l)))

/-- The diagnostic thrown for an inline SVG error (src/index.ts line 139). -/
def inlineErrorMessage (g : List Char) : String :=
  "ダイアグラム生成エラー (SVG内):\n" ++
    String.mk (decodeEntitiesL (trimL (pickRawError g))) ++
    "\n\n記述内容を確認してください。"

/-! ## HTML error page detection and extraction (src/index.ts lines 103-127) -/

/-- One attempt of `/<title>(.*?)<\/title>/i` at the current position:
`.` does not match line terminators, so the group must reach `</title>`
without crossing a newline, or this start position fails. -/
def titleGrab : List Char → Option (List Char)
  | [] => none
  | c :: rest =>
    match dropPreBy ciEq "</title>".data (c :: rest) with
    | some _ => some []
    | none =>
      if c = '\n' ∨ c = '\r' then none
      else (titleGrab rest).map (fun g => c :: g)

def tryTitleAt (l : List Char) : Option (List Char) :=
  match dropPreBy ciEq "<title>".data l with
  | none => none
  | some r => titleGrab r

/-- Models `htmlContent.match(/<title>(.*?)<\/title>/i)`. -/
def matchTitle (l : List Char) : Option (List Char) := firstMatch tryTitleAt l

/-- One attempt of `/<open>([\s\S]*?)<\/close>/i` (used for `<body>` and
`<pre>` blocks, whose groups may span lines). -/
def tryBlockAt (opn cls : List Char) (l : List Char) : Option (List Char) :=
  match dropPreBy ciEq opn l with
  | none => none
  | some r => (splitOnceBy ciEq cls r).map (fun pr => pr.1)

/-- Models `htmlContent.match(/<body>([\s\S]*?)<\/body>/i)`. -/
def matchBody (l : List Char) : Option (List Char) :=
  firstMatch (tryBlockAt "<body>".data "</body>".data) l

/-- Models `bodyMatch[1].match(/<pre>([\s\S]*?)<\/pre>/i)`. -/
def matchPre (l : List Char) : Option (List Char) :=
  firstMatch (tryBlockAt "<pre>".data "</pre>".data) l

/-- Models `.replace(/<[^>]+>/g, ' ')`: each tag-shaped run becomes one space;
a `<` with nothing before the next `>` (or no `>` at all) stays.
Fuel-driven (each step consumes at least one character). -/
def stripTagsAux : Nat → List Char → List Char
  | 0, l => l
  | fuel + 1, l =>
    match l with
    | [] => []
    | c :: rest =>
      if c = '<' then
        match splitOnceBy chEq ['>'] rest with
        | some (seg, after) =>
          if seg = [] then c :: stripTagsAux fuel rest
          else ' ' :: stripTagsAux fuel after
        | none => c :: stripTagsAux fuel rest
      else c :: stripTagsAux fuel rest

def stripTags (l : List Char) : List Char := stripTagsAux l.length l

/-- Models `.replace(/\s+/g, ' ')`: collapse whitespace runs to single spaces. -/
def collapseWs : Bool → List Char → List Char
  | _, [] => []
  | inWs, c :: rest =>
    if isWsCh c then
      if inWs then collapseWs true rest else ' ' :: collapseWs true rest
    else c :: collapseWs false rest

/-- The message extracted from an HTML error page (src/index.ts lines 107-125). -/
def extractHtmlMessage (body : List Char) : String :=
  let headline : String :=
    match matchTitle body with
    | some t => String.mk (trimL t)
    | none => "Unknown error (HTML response)"
  match matchBody body with
  | some b =>
    if containsBy ciEq "unable to decode".data b then
      let base := "デコードエラー: Krokiがソースをデコードできませんでした。記述形式や内容を確認してください。"
      match matchPre b with
      | some p =>
        if trimL p = [] then base
        else base ++ "\n詳細:\n---\n" ++ String.mk (trimL p) ++ "\n---"
      | none => base
    else
      let plain := trimL (collapseWs false (stripTags b))
      if 0 < plain.length ∧ plain.length < 300 then
        headline ++ " (内容: " ++ String.mk plain ++ "...)"
      else headline
  | none => headline

/-- The HTML-error-page test (src/index.ts line 105): the lowercased
content-type header contains `text/html`, or the first ~100 decoded
characters, trimmed, start with `<html` or `<!DOCTYPE html`
(both `startsWith` checks are case-sensitive). -/
def isHtmlResponse (contentType : Option String) (body : List Char) : Bool :=
  let ct := lowerL (contentType.getD "").data
  containsBy chEq "text/html".data ct ||
  startsWithL "<html".data (trimL (body.take 100)) ||
  startsWithL "<!DOCTYPE html".data (trimL (body.take 100))

/-! ## Transport outcome and errors (src/index.ts lines 92-98 and 178-204) -/

/-- MCP error codes used by the source. -/
inductive ErrCode where
  | InvalidParams
  | InternalError
  deriving DecidableEq, Repr

/-- An `McpError` as thrown by the source: code plus constructor message. -/
structure McpErr where
  code : ErrCode
  message : String
  deriving DecidableEq, Repr

/-- A raw HTTP response: status, `content-type` header, decoded body text. -/
structure HttpResponse where
  status : Nat
  contentType : Option String
  body : String
  deriving DecidableEq, Repr

/-- What the transport produced: a server response (any status), or a
network-level failure with no response (`error.response` absent). -/
inductive Wire where
  | response (r : HttpResponse)
  | networkFailure (msg : String)
  deriving DecidableEq, Repr

/-- A successful render result: final bytes (as decoded text) and format. -/
structure DiagramData where
  data : String
  format : String
  deriving DecidableEq, Repr

/-- Decidable equality of pipeline outcomes, for concrete evaluations. -/
instance {ε α : Type} [DecidableEq ε] [DecidableEq α] : DecidableEq (Except ε α) :=
  fun a b =>
    match a, b with
    | Except.ok x, Except.ok y =>
      if h : x = y then isTrue (by rw [h]) else isFalse (by intro hc; cases hc; exact h rfl)
    | Except.error x, Except.error y =>
      if h : x = y then isTrue (by rw [h]) else isFalse (by intro hc; cases hc; exact h rfl)
    | Except.ok _, Except.error _ => isFalse (by intro hc; cases hc)
    | Except.error _, Except.ok _ => isFalse (by intro hc; cases hc)

/-- Models `validateStatus: (status) => status >= 200 && status < 300`. -/
def validateStatus (status : Nat) : Bool := 200 ≤ status && status < 300

/-- The catch-block handling of an axios error that carries a response
(src/index.ts lines 179-196): a 400 gets a tailored syntax-error message
with code `InvalidParams`; everything else keeps the generic
request-failed framing with code `InternalError`.  The body snippet is
included only when the decoded text is non-empty and shorter than 500. -/
def krokiSnippet (bodyText : String) : String :=
  if bodyText.data ≠ [] ∧ bodyText.data.length < 500
  then String.mk (trimL bodyText.data) else ""

def httpFailure (status : Nat) (bodyText : String) : McpErr :=
  let krokiMessage : String := krokiSnippet bodyText
  if status = 400 then
    { code := ErrCode.InvalidParams
      message := "ダイアグラムの記述にエラーがあるようです (Kroki HTTP 400)。\n" ++
        (if krokiMessage ≠ "" then
          "Krokiからの詳細情報:\n---\n" ++ krokiMessage ++ "\n---\n"
         else "Krokiから詳細なエラー箇所情報は提供されませんでした。\n") ++
        "記述内容を確認してください。" }
  else
    { code := ErrCode.InternalError
      message := "Kroki APIリクエスト失敗 (ステータス: " ++ natToStr status ++ ")" ++
        (if krokiMessage ≠ "" then "\nKrokiからのメッセージ: " ++ krokiMessage else "") }

/-- The catch-block handling of a network-level failure with no response
(src/index.ts lines 200-203). -/
def networkErr (msg : String) : McpErr :=
  { code := ErrCode.InternalError
    message := "Failed to fetch diagram from Kroki: " ++
      (if msg ≠ "" then msg else "Unknown network error") }

/-! ## Validation and the request pipeline (src/index.ts lines 51-224, 318-367) -/

/-- The closed set of supported diagram grammars (src/index.ts lines 52-57). -/
def validTypes : List String :=
  ["mermaid", "plantuml", "graphviz", "c4plantuml",
   "excalidraw", "erd", "svgbob", "nomnoml", "wavedrom",
   "blockdiag", "seqdiag", "actdiag", "nwdiag", "packetdiag",
   "rackdiag", "umlet", "ditaa", "vega", "vegalite"]

/-- The closed set of output formats (src/index.ts line 68). -/
def validFormats : List String := ["svg", "png", "pdf", "jpeg", "base64"]

/-- The `InvalidParams` error thrown by `validateDiagramType`. -/
def invalidTypeErr : McpErr :=
  { code := ErrCode.InvalidParams
    message := "Invalid diagram type. Must be one of: " ++
      String.intercalate ", " validTypes }

/-- The `InvalidParams` error thrown by `validateOutputFormat`. -/
def invalidFormatErr : McpErr :=
  { code := ErrCode.InvalidParams
    message := "Invalid output format. Must be one of: " ++
      String.intercalate ", " validFormats }

/-- JS `a || b` on strings: the empty string is falsy. -/
def jsOrStr (a b : String) : String := if a = "" then b else a

/-- JS `opt || b` where `opt` may be `undefined`. -/
def jsOr (a : Option String) (b : String) : String :=
  match a with
  | some s => jsOrStr s b
  | none => b

/-- Models `getDiagramData` (src/index.ts lines 79-205): validate, encode, fetch,
classify (HTML error page, then inline SVG error), scale, and map any
non-2xx / network failure through the catch block. -/
def getDiagramData (deflate : List Nat → List Nat) (fetch : String → Wire)
    (typ content : String) (outputFormat? : Option String) (scale? : Option JsNum) :
    Except McpErr DiagramData :=
  if typ ∈ validTypes then
    let fmt := jsOr outputFormat? "svg"
    if fmt ∈ validFormats then
      match fetch (krokiUrl deflate typ fmt content) with
      | Wire.networkFailure msg => Except.error (networkErr msg)
      | Wire.response r =>
        if validateStatus r.status then
          let scale := scale?.getD 1
          if isHtmlResponse r.contentType r.body.data then
            Except.error
              { code := ErrCode.InvalidParams
                message := "Krokiエラー: " ++ extractHtmlMessage r.body.data }
          else if (fmt = "svg" ∨ fmt = "base64") ∧ r.body.data ≠ [] then
            match scanInline r.body.data with
            | some g =>
              Except.error { code := ErrCode.InvalidParams
                             message := inlineErrorMessage g }
            | none => Except.ok { data := scaleStep scale fmt r.body, format := fmt }
          else Except.ok { data := r.body, format := fmt }
        else Except.error (httpFailure r.status r.body)
    else Except.error invalidFormatErr
  else Except.error invalidTypeErr

/-- Models `generateDiagramUrl` (src/index.ts lines 208-224): validate, probe the
full pipeline using `svg` in place of `base64`, then rebuild and return the
URL for the requested format. -/
def generateDiagramUrl (deflate : List Nat → List Nat) (fetch : String → Wire)
    (typ content : String) (outputFormat? : Option String) :
    Except McpErr String :=
  if typ ∈ validTypes then
    let fmt := jsOr outputFormat? "svg"
    if fmt ∈ validFormats then
      let checkFormat := if fmt = "base64" then "svg" else fmt
      (getDiagramData deflate fetch typ content (some checkFormat) none).map
        (fun _ => krokiUrl deflate typ fmt content)
    else Except.error invalidFormatErr
  else Except.error invalidTypeErr

/-- Node `path.extname` (POSIX): the suffix of the basename from its last
dot, empty when the basename has no dot or only a leading dot. -/
def extname (p : String) : String :=
  let base := match splitOnceBy chEq ['/'] p.data.reverse with
    | some (revBase, _) => revBase.reverse
    | none => p.data
  match splitOnceBy chEq ['.'] base.reverse with
  | none => ""
  | some (revExt, restRev) =>
    if restRev = [] then ""  -- the dot is the first character of the basename
    else String.mk ('.' :: revExt.reverse)

/-- Models `outputFormat || path.extname(outputPath).slice(1) || 'svg'`
(src/index.ts line 331). -/
def determinedFormat (outputFormat? : Option String) (outputPath : String) : String :=
  jsOr outputFormat? (jsOrStr (String.mk (extname outputPath).data.tail) "svg")

/-- The `download_diagram` handler (src/index.ts lines 318-367), with the
filesystem effect reified: a success is the pair (path, bytes) handed to
`fs.writeFile` after the parent directory is created; any error is
re-raised with the target path prepended to its message.  No write
instruction exists on the error path. -/
def downloadDiagram (deflate : List Nat → List Nat) (fetch : String → Wire)
    (typ content outputPath : String) (outputFormat? : Option String)
    (scale? : Option JsNum) : Except McpErr (String × String) :=
  match getDiagramData deflate fetch typ content
      (some (determinedFormat outputFormat? outputPath)) (some (scale?.getD 1)) with
  | Except.ok d => Except.ok (outputPath, d.data)
  | Except.error e =>
    Except.error { code := e.code
                   message := "Failed to download diagram to " ++ outputPath ++
                     ": " ++ e.message }

/-! ## Lemma toolkit for the pattern-search primitives -/

theorem chEq_refl (c : Char) : chEq c c = true := by simp [chEq]

theorem ciEq_refl (c : Char) : ciEq c c = true := by simp [ciEq]

theorem chEq_false_iff {a b : Char} : chEq a b = false ↔ a ≠ b := by
  simp [chEq]

/-- A pattern matches its own copy prepended to anything (for any reflexive
character comparison). -/
theorem dropPreBy_self {beq : Char → Char → Bool} (hbeq : ∀ c, beq c c = true) :
    ∀ (p t : List Char), dropPreBy beq p (p ++ t) = some t
  | [], _ => rfl
  | c :: p, t => by
    simp only [List.cons_append, dropPreBy, hbeq c, if_true]
    exact dropPreBy_self hbeq p t

/-- Matching an appended pattern is sequential matching. -/
theorem dropPreBy_append {beq : Char → Char → Bool} :
    ∀ (p q l : List Char),
      dropPreBy beq (p ++ q) l = (dropPreBy beq p l).bind (dropPreBy beq q)
  | [], _, _ => by simp [dropPreBy]
  | a :: p, _, [] => by simp [dropPreBy]
  | a :: p, q, b :: l => by
    by_cases hab : beq a b <;>
      simp [dropPreBy, hab, dropPreBy_append p q l]

theorem dropPreBy_none_of_head {beq : Char → Char → Bool} {a b : Char}
    (p l : List Char) (h : beq a b = false) :
    dropPreBy beq (a :: p) (b :: l) = none := by
  simp [dropPreBy, h]

/-- A successful anchored match is the leftmost occurrence. -/
theorem splitOnceBy_of_dropPre {beq : Char → Char → Bool} {p l r : List Char}
    (h : dropPreBy beq p l = some r) : splitOnceBy beq p l = some ([], r) := by
  cases l with
  | nil => simp [splitOnceBy, h]
  | cons c rest => simp [splitOnceBy, h]

theorem splitOnceBy_cons_none {beq : Char → Char → Bool} {p : List Char} {c : Char}
    {l : List Char} (h : dropPreBy beq p (c :: l) = none) :
    splitOnceBy beq p (c :: l) =
      (splitOnceBy beq p l).map (fun pr => (c :: pr.1, pr.2)) := by
  simp [splitOnceBy, h]

/-- The leftmost occurrence search skips any segment whose characters all
disagree with the pattern head. -/
theorem splitOnceBy_skip {e : Char → Char → Bool} {a : Char} {q : List Char} :
    ∀ {s : List Char} (l : List Char), (∀ c ∈ s, e a c = false) →
      splitOnceBy e (a :: q) (s ++ l) =
        (splitOnceBy e (a :: q) l).map (fun pr => (s ++ pr.1, pr.2))
  | [], l, _ => by
    cases hs : splitOnceBy e (a :: q) l <;> simp [hs]
  | c :: s, l, h => by
    have hc : e a c = false := h c (List.mem_cons_self c s)
    have ih := splitOnceBy_skip (e := e) (a := a) (q := q) (s := s) l
      (fun d hd => h d (List.mem_cons_of_mem c hd))
    simp only [List.cons_append]
    rw [splitOnceBy_cons_none (dropPreBy_none_of_head q (s ++ l) hc), ih]
    cases hs : splitOnceBy e (a :: q) l <;> simp [hs]

theorem firstMatch_of_some {α : Type} {f : List Char → Option α} {l : List Char}
    {a : α} (h : f l = some a) : firstMatch f l = some a := by
  cases l with
  | nil => simpa [firstMatch] using h
  | cons c rest => simp [firstMatch, h]

theorem firstMatch_cons_none {α : Type} {f : List Char → Option α} {c : Char}
    {l : List Char} (h : f (c :: l) = none) :
    firstMatch f (c :: l) = firstMatch f l := by
  simp [firstMatch, h]

/-- The leftmost-position search skips a segment when the matcher fails at
every position starting inside it. -/
theorem firstMatch_skip {α : Type} {f : List Char → Option α} :
    ∀ {seg : List Char} (l : List Char), (∀ c t, c ∈ seg → f (c :: t) = none) →
      firstMatch f (seg ++ l) = firstMatch f l
  | [], _, _ => rfl
  | c :: seg, l, h => by
    simp only [List.cons_append]
    rw [firstMatch_cons_none (h c (seg ++ l) (List.mem_cons_self c seg))]
    exact firstMatch_skip l (fun d t hd => h d t (List.mem_cons_of_mem c hd))

theorem replaceFirstL_eq {p l a b : List Char} (new : List Char)
    (h : splitOnceBy chEq p l = some (a, b)) :
    replaceFirstL p new l = a ++ new ++ b := by
  simp [replaceFirstL, h]

/-! ## Character-class facts -/

theorem chEq_false_of_digit {c : Char} (h : isDigitCh c = true) {d : Char}
    (hd : d.toNat < 48 ∨ 57 < d.toNat) : chEq d c = false := by
  rw [chEq_false_iff]
  intro he
  subst he
  simp [isDigitCh] at h
  omega

/-- Unit-suffix characters as the scale-rewrite claims constrain them:
not digits, dots, whitespace, quotes, tag delimiters, sign or exponent
markers, not the replacement-pattern escape `$`, and not the first letters
of `width`/`height` (so attribute-name searches cannot start inside a
unit). -/
def goodUnitChar (c : Char) : Bool :=
  !(isDigitCh c) && !(isWsCh c) &&
  !(chEq '.' c) && !(chEq '"' c) && !(chEq '>' c) && !(chEq '<' c) &&
  !(chEq 'h' c) && !(chEq 'w' c) && !(chEq 'e' c) && !(chEq 'E' c) &&
  !(chEq '-' c) && !(chEq '+' c) && !(chEq '$' c)

theorem goodUnitChar_spec {c : Char} (h : goodUnitChar c = true) :
    isDigitCh c = false ∧ isWsCh c = false ∧
    chEq '.' c = false ∧ chEq '"' c = false ∧ chEq '>' c = false ∧
    chEq '<' c = false ∧ chEq 'h' c = false ∧ chEq 'w' c = false ∧
    chEq 'e' c = false ∧ chEq 'E' c = false ∧ chEq '-' c = false ∧
    chEq '+' c = false ∧ chEq '$' c = false := by
  simp only [goodUnitChar, Bool.and_eq_true, Bool.not_eq_true'] at h
  tauto

theorem digitChar_isDigit (d : Nat) : isDigitCh (digitChar d) = true := by
  rcases d with _ | _ | _ | _ | _ | _ | _ | _ | _ | _ <;> rfl

theorem natDigitsAux_digits :
    ∀ (fuel n : Nat) (c : Char), c ∈ natDigitsAux fuel n → isDigitCh c = true := by
  intro fuel
  induction fuel with
  | zero => intro n c hc; simp [natDigitsAux] at hc
  | succ fuel ih =>
    intro n c hc
    simp only [natDigitsAux] at hc
    by_cases hn : n < 10
    · rw [if_pos hn] at hc
      simp at hc
      subst hc
      exact digitChar_isDigit n
    · rw [if_neg hn] at hc
      rcases List.mem_append.mp hc with h1 | h1
      · exact ih _ _ h1
      · simp at h1
        subst h1
        exact digitChar_isDigit _

/-- Every character printed by `toFixed2` of a nonnegative value is a
digit or the decimal point. -/
theorem toFixed2_chars {q : JsNum} (hq : 0 ≤ q.num) :
    ∀ c ∈ (toFixed2 q).data, isDigitCh c = true ∨ c = '.' := by
  intro c hc
  have hneg : ¬(q < 0) := by
    show ¬(JsNum.lt q 0)
    simp only [JsNum.lt]
    show ¬(q.num * (1 : Nat) < 0 * q.den)
    simp
    omega
  simp only [toFixed2, if_neg hneg] at hc
  rcases List.mem_append.mp hc with h1 | h1
  · exact Or.inl (natDigitsAux_digits _ _ _ h1)
  · simp [twoDigits] at h1
    rcases h1 with h1 | h1 | h1
    · exact Or.inr h1
    · subst h1; exact Or.inl (digitChar_isDigit _)
    · subst h1; exact Or.inl (digitChar_isDigit _)

/-! ## Evaluation of `parseFloat` and `unitOf` on a digits-then-unit value -/

theorem readDigits_append {w : List Char} (hw : ∀ c ∈ w, isDigitCh c = true) :
    ∀ {u : List Char}, (∀ c t, u = c :: t → isDigitCh c = false) →
      readDigits (w ++ u) = (w, u) := by
  induction w with
  | nil =>
    intro u hu
    cases u with
    | nil => rfl
    | cons c t => simp [readDigits, hu c t rfl]
  | cons c w ih =>
    intro u hu
    have hc := hw c (List.mem_cons_self c w)
    have hrec := ih (fun d hd => hw d (List.mem_cons_of_mem c hd)) hu
    simp only [List.cons_append, readDigits, hc, if_true, List.append_eq, hrec]

/-- An exponent marker can only be a unit head if the unit breaks the
`goodUnitChar` discipline, so `withExp` leaves the value alone. -/
theorem withExp_of_good {u : List Char} (hu : ∀ c ∈ u, goodUnitChar c = true)
    (val : JsNum) : withExp val u = val := by
  cases u with
  | nil => rfl
  | cons c t =>
    have hspec := goodUnitChar_spec (hu c (List.mem_cons_self c t))
    have hce : c ≠ 'e' := by
      have := hspec.2.2.2.2.2.2.2.2.1
      rw [chEq_false_iff] at this
      exact fun h => this h.symm
    have hcE : c ≠ 'E' := by
      have := hspec.2.2.2.2.2.2.2.2.2.1
      rw [chEq_false_iff] at this
      exact fun h => this h.symm
    simp only [withExp]
    rw [if_neg]
    rintro (h | h)
    · exact hce h
    · exact hcE h

/-- Models `parseFloat` on a value that is a nonempty digit run followed by a
well-behaved unit suffix yields exactly the integer value of the digits. -/
theorem parseFloatQ_digits {w u : List Char} (hw : ∀ c ∈ w, isDigitCh c = true)
    (hne : w ≠ []) (hu : ∀ c ∈ u, goodUnitChar c = true) :
    parseFloatQ (w ++ u) = some ⟨(digitsToNat w : Int), 1⟩ := by
  have huhead : ∀ c t, u = c :: t → isDigitCh c = false := by
    intro c t hct
    subst hct
    exact (goodUnitChar_spec (hu c (List.mem_cons_self c t))).1
  obtain ⟨d, w', hwsplit⟩ : ∃ d w', w = d :: w' := by
    cases w with
    | nil => exact absurd rfl hne
    | cons d w' => exact ⟨d, w', rfl⟩
  have hd : isDigitCh d = true := hw d (hwsplit ▸ List.mem_cons_self d w')
  have hdws : isWsCh d = false := by
    simp [isDigitCh] at hd
    simp [isWsCh]
    omega
  have hdminus : d ≠ '-' := by
    intro h; rw [h] at hd; simp [isDigitCh] at hd
  have hdplus : d ≠ '+' := by
    intro h; rw [h] at hd; simp [isDigitCh] at hd
  have hddot : d ≠ '.' := by
    intro h; rw [h] at hd; simp [isDigitCh] at hd
  have hread : readDigits (w ++ u) = (w, u) := readDigits_append hw huhead
  have hunsigned : parseUnsigned (w ++ u) = some ⟨(digitsToNat w : Int), 1⟩ := by
    cases u with
    | nil =>
      simp only [parseUnsigned, hread]
      rw [if_neg hne]
      rfl
    | cons c t =>
      have hcdot : c ≠ '.' := by
        have := (goodUnitChar_spec (hu c (List.mem_cons_self c t))).2.2.1
        rw [chEq_false_iff] at this
        exact fun h => this h.symm
      simp only [parseUnsigned, hread]
      rw [if_neg hcdot, if_neg hne, withExp_of_good hu]
  show parseFloatQ (w ++ u) = some ⟨(digitsToNat w : Int), 1⟩
  unfold parseFloatQ
  rw [hwsplit]
  simp only [List.cons_append, List.dropWhile_cons, hdws, Bool.false_eq_true,
    if_false]
  have hform : parseUnsigned (d :: (w' ++ u)) = some ⟨(digitsToNat w : Int), 1⟩ := by
    rw [← List.cons_append, ← hwsplit]
    exact hunsigned
  rw [if_neg hdminus, if_neg hdplus]
  rw [hwsplit] at hform
  exact hform

/-! ## The inline-error scan on a canonical error element -/

theorem splitOnceBy_skip' {e : Char → Char → Bool} {p : List Char} {a : Char}
    {q : List Char} (hp : p = a :: q) {s : List Char} (l : List Char)
    (h : ∀ c ∈ s, e a c = false) :
    splitOnceBy e p (s ++ l) =
      (splitOnceBy e p l).map (fun pr => (s ++ pr.1, pr.2)) := by
  subst hp
  exact splitOnceBy_skip l h

/-- The attribute text of `<text class="error">`. -/
def errAttrSeg : List Char := " class=\"error\"".data

/-- The attribute text of `<text fill="red">`. -/
def redAttrSeg : List Char := " fill=\"red\"".data

theorem errAttrSeg_lit : errAttrSeg =
  [' ', 'c', 'l', 'a', 's', 's', '=', '"', 'e', 'r', 'r', 'o', 'r', '"'] := rfl

theorem redAttrSeg_lit : redAttrSeg =
  [' ', 'f', 'i', 'l', 'l', '=', '"', 'r', 'e', 'd', '"'] := rfl

/-- A marker attempt at the head of a canonical error element: the open
tag's attribute text is `>`-free and carries the marker, the message is
`<`-free, so the match is anchored exactly as the regex dictates. -/
theorem tryTextMarker_family {marker attr m p : List Char}
    (hgt : ∀ c ∈ attr, ciEq '>' c = false)
    (hcont : containsBy ciEq marker attr = true)
    (hm : ∀ c ∈ m, ciEq '<' c = false) :
    tryTextMarkerAt marker
      (textOpenPat ++ (attr ++ ('>' :: (m ++ (textClosePat ++ p))))) = some m := by
  have h1 : dropPreBy ciEq textOpenPat
      (textOpenPat ++ (attr ++ ('>' :: (m ++ (textClosePat ++ p))))) =
      some (attr ++ ('>' :: (m ++ (textClosePat ++ p)))) :=
    dropPreBy_self ciEq_refl _ _
  have h2 : splitOnceBy ciEq ['>'] (attr ++ ('>' :: (m ++ (textClosePat ++ p)))) =
      some (attr, m ++ (textClosePat ++ p)) := by
    rw [splitOnceBy_skip' (e := ciEq) (p := ['>']) rfl _ hgt]
    rw [splitOnceBy_of_dropPre (show dropPreBy ciEq ['>']
      ('>' :: (m ++ (textClosePat ++ p))) = some (m ++ (textClosePat ++ p)) by
        simp [dropPreBy, ciEq_refl])]
    simp
  have h3 : splitOnceBy ciEq textClosePat (m ++ (textClosePat ++ p)) =
      some (m, p) := by
    rw [splitOnceBy_skip' (e := ciEq) (p := textClosePat) rfl _ hm]
    rw [splitOnceBy_of_dropPre (dropPreBy_self ciEq_refl textClosePat p)]
    simp
  simp only [tryTextMarkerAt, h1, h2, h3, hcont, if_true]

/-- The inline scan finds a canonical `class="error"` text element at the
head of the body and captures its content. -/
theorem scanInline_classErr {m p : List Char} (hm : ∀ c ∈ m, ciEq '<' c = false) :
    scanInline (textOpenPat ++ (errAttrSeg ++ ('>' :: (m ++ (textClosePat ++ p)))))
      = some m := by
  apply firstMatch_of_some
  unfold tryInlineAt
  rw [tryTextMarker_family (by decide) (by decide) hm]

/-- The inline scan finds a canonical red-filled text element at the head
of the body and captures its content (the `class="error"` alternative is
tried first and fails on this attribute text). -/
theorem scanInline_fillRed {m p : List Char} (hm : ∀ c ∈ m, ciEq '<' c = false) :
    scanInline (textOpenPat ++ (redAttrSeg ++ ('>' :: (m ++ (textClosePat ++ p)))))
      = some m := by
  apply firstMatch_of_some
  unfold tryInlineAt
  have h1 : dropPreBy ciEq textOpenPat
      (textOpenPat ++ (redAttrSeg ++ ('>' :: (m ++ (textClosePat ++ p))))) =
      some (redAttrSeg ++ ('>' :: (m ++ (textClosePat ++ p)))) :=
    dropPreBy_self ciEq_refl _ _
  have h2 : splitOnceBy ciEq ['>'] (redAttrSeg ++ ('>' :: (m ++ (textClosePat ++ p)))) =
      some (redAttrSeg, m ++ (textClosePat ++ p)) := by
    rw [splitOnceBy_skip' (e := ciEq) (p := ['>']) rfl _ (by decide)]
    rw [splitOnceBy_of_dropPre (show dropPreBy ciEq ['>']
      ('>' :: (m ++ (textClosePat ++ p))) = some (m ++ (textClosePat ++ p)) by
        simp [dropPreBy, ciEq_refl])]
    simp
  have halt1 : tryTextMarkerAt classErrPat
      (textOpenPat ++ (redAttrSeg ++ ('>' :: (m ++ (textClosePat ++ p))))) = none := by
    simp only [tryTextMarkerAt, h1, h2]
    rw [show containsBy ciEq classErrPat redAttrSeg = false by decide]
    simp
  rw [halt1, tryTextMarker_family (by decide) (by decide) hm]

/-! ## The scale rewrite on a canonical `<svg width="…" height="…">` root -/

/-- Stripping digits and dots from a digits-then-unit value leaves the
unit. -/
theorem unitOf_append {w u : List Char} (hw : ∀ c ∈ w, isDigitCh c = true)
    (hu : ∀ c ∈ u, goodUnitChar c = true) (hune : u ≠ []) :
    unitOf (w ++ u) = u := by
  have hfw : w.filter (fun c => !(isDigitCh c || chEq '.' c)) = [] := by
    rw [List.filter_eq_nil_iff]
    intro c hc
    simp [hw c hc]
  have hfu : u.filter (fun c => !(isDigitCh c || chEq '.' c)) = u := by
    rw [List.filter_eq_self]
    intro c hc
    have hs := goodUnitChar_spec (hu c hc)
    simp [hs.1, hs.2.2.1]
  unfold unitOf
  rw [List.filter_append, hfw, hfu]
  simp [hune]

theorem tryAttr_none_of_head {g : List Char} {a : Char} {q : List Char}
    (hp : g = a :: q) {c : Char} (t : List Char) (h : chEq a c = false) :
    tryAttrAt g (c :: t) = none := by
  subst hp
  simp [tryAttrAt, dropPreBy_none_of_head q t h]

/-- A nonempty list stays nonempty under right-append. -/
theorem append_ne_nil_left {w u : List Char} (hw : w ≠ []) : w ++ u ≠ [] := by
  cases w with
  | nil => exact absurd rfl hw
  | cons c t => simp

/-- The text ` width="` between the root tag name and the width value. -/
def wOpenSeg : List Char := " width=\"".data

/-- The text `" height="` between the width value and the height value. -/
def hOpenSeg : List Char := "\" height=\"".data

/-- The text `">` closing the height value and the root tag. -/
def closeSeg : List Char := "\">".data

/-- Locating the end of the canonical root tag: the first `>` of the
document closes it, because values and units contain no `>`. -/
theorem splitGt_attrs {w u h v : List Char} (rest : List Char)
    (hwgt : ∀ c ∈ w, chEq '>' c = false) (hugt : ∀ c ∈ u, chEq '>' c = false)
    (hhgt : ∀ c ∈ h, chEq '>' c = false) (hvgt : ∀ c ∈ v, chEq '>' c = false) :
    splitOnceBy chEq ['>']
      (wOpenSeg ++ (w ++ (u ++ (hOpenSeg ++ (h ++ (v ++ (closeSeg ++ rest))))))) =
      some (wOpenSeg ++ (w ++ (u ++ (hOpenSeg ++ (h ++ (v ++ ['"']))))), rest) := by
  rw [splitOnceBy_skip' (e := chEq) (p := ['>']) rfl _ (by decide)]
  rw [splitOnceBy_skip' (e := chEq) (p := ['>']) rfl _ hwgt]
  rw [splitOnceBy_skip' (e := chEq) (p := ['>']) rfl _ hugt]
  rw [splitOnceBy_skip' (e := chEq) (p := ['>']) rfl _ (by decide :
    ∀ c ∈ hOpenSeg, chEq '>' c = false)]
  rw [splitOnceBy_skip' (e := chEq) (p := ['>']) rfl _ hhgt]
  rw [splitOnceBy_skip' (e := chEq) (p := ['>']) rfl _ hvgt]
  rw [show closeSeg ++ rest = ['"'] ++ ('>' :: rest) from rfl]
  rw [splitOnceBy_skip' (e := chEq) (p := ['>']) rfl _ (by decide :
    ∀ c ∈ ['"'], chEq '>' c = false)]
  rw [splitOnceBy_of_dropPre (show dropPreBy chEq ['>'] ('>' :: rest) = some rest by
    simp [dropPreBy, chEq_refl])]
  simp

/-- The tail of `hOpenSeg` after its closing quote. -/
def hTailSeg : List Char := " height=\"".data

theorem wOpenSeg_lit : wOpenSeg = [' ', 'w', 'i', 'd', 't', 'h', '=', '"'] := rfl

theorem hOpenSeg_lit :
    hOpenSeg = ['"', ' ', 'h', 'e', 'i', 'g', 'h', 't', '=', '"'] := rfl

theorem closeSeg_lit : closeSeg = ['"', '>'] := rfl

theorem hTailSeg_lit : hTailSeg = [' ', 'h', 'e', 'i', 'g', 'h', 't', '=', '"'] := rfl

/-- Models `attributes.match(/width="([^"]+)"/)` on the canonical attribute text:
the match starts right after the leading space and captures the width
value. -/
theorem matchWidth_attrs {w u h v : List Char}
    (hwq : ∀ c ∈ w, chEq '"' c = false) (huq : ∀ c ∈ u, chEq '"' c = false)
    (hwne : w ≠ []) :
    matchAttr widthPat
      (wOpenSeg ++ (w ++ (u ++ (hOpenSeg ++ (h ++ (v ++ ['"'])))))) =
      some ((widthPat ++ (w ++ u)) ++ ['"'], w ++ u) := by
  unfold matchAttr
  rw [show wOpenSeg ++ (w ++ (u ++ (hOpenSeg ++ (h ++ (v ++ ['"']))))) =
    ' ' :: (widthPat ++ (w ++ (u ++ (hOpenSeg ++ (h ++ (v ++ ['"'])))))) from rfl]
  rw [firstMatch_cons_none (show tryAttrAt widthPat
    (' ' :: (widthPat ++ (w ++ (u ++ (hOpenSeg ++ (h ++ (v ++ ['"']))))))) = none
    from rfl)]
  apply firstMatch_of_some
  have hsplit : splitOnceBy chEq ['"']
      (w ++ (u ++ (hOpenSeg ++ (h ++ (v ++ ['"']))))) =
      some (w ++ u, hTailSeg ++ (h ++ (v ++ ['"']))) := by
    rw [splitOnceBy_skip' (e := chEq) (p := ['"']) rfl _ hwq]
    rw [splitOnceBy_skip' (e := chEq) (p := ['"']) rfl _ huq]
    rw [show hOpenSeg ++ (h ++ (v ++ ['"'])) =
      '"' :: (hTailSeg ++ (h ++ (v ++ ['"']))) from rfl]
    rw [splitOnceBy_of_dropPre (show dropPreBy chEq ['"']
      ('"' :: (hTailSeg ++ (h ++ (v ++ ['"'])))) =
      some (hTailSeg ++ (h ++ (v ++ ['"']))) by simp [dropPreBy, chEq_refl])]
    simp
  simp only [tryAttrAt, dropPreBy_self chEq_refl, hsplit]
  rw [if_neg (append_ne_nil_left hwne)]

/-- Models `attributes.match(/height="([^"]+)"/)` on the canonical attribute text:
no earlier position matches (unit characters exclude `h`, and the `h`
inside `width` is not followed by `eight="`), so the match captures the
height value. -/
theorem matchHeight_attrs {w u h v : List Char}
    (hwh : ∀ c ∈ w, chEq 'h' c = false) (huh : ∀ c ∈ u, chEq 'h' c = false)
    (hhq : ∀ c ∈ h, chEq '"' c = false) (hvq : ∀ c ∈ v, chEq '"' c = false)
    (hhne : h ≠ []) :
    matchAttr heightPat
      (wOpenSeg ++ (w ++ (u ++ (hOpenSeg ++ (h ++ (v ++ ['"'])))))) =
      some ((heightPat ++ (h ++ v)) ++ ['"'], h ++ v) := by
  unfold matchAttr
  rw [show wOpenSeg ++ (w ++ (u ++ (hOpenSeg ++ (h ++ (v ++ ['"']))))) =
    [' ', 'w', 'i', 'd', 't'] ++
      ('h' :: (['=', '"'] ++ (w ++ (u ++ (hOpenSeg ++ (h ++ (v ++ ['"'])))))))
    from rfl]
  rw [firstMatch_skip _ (fun c t hc =>
    tryAttr_none_of_head (g := heightPat) rfl t ((by decide :
      ∀ c ∈ [' ', 'w', 'i', 'd', 't'], chEq 'h' c = false) c hc))]
  rw [firstMatch_cons_none (show tryAttrAt heightPat
    ('h' :: (['=', '"'] ++ (w ++ (u ++ (hOpenSeg ++ (h ++ (v ++ ['"']))))))) = none
    from rfl)]
  rw [firstMatch_skip _ (fun c t hc =>
    tryAttr_none_of_head (g := heightPat) rfl t ((by decide :
      ∀ c ∈ ['=', '"'], chEq 'h' c = false) c hc))]
  rw [firstMatch_skip _ (fun c t hc => tryAttr_none_of_head (g := heightPat) rfl t (hwh c hc))]
  rw [firstMatch_skip _ (fun c t hc => tryAttr_none_of_head (g := heightPat) rfl t (huh c hc))]
  rw [show hOpenSeg ++ (h ++ (v ++ ['"'])) =
    ['"', ' '] ++ (heightPat ++ (h ++ (v ++ ['"']))) from rfl]
  rw [firstMatch_skip _ (fun c t hc =>
    tryAttr_none_of_head (g := heightPat) rfl t ((by decide :
      ∀ c ∈ ['"', ' '], chEq 'h' c = false) c hc))]
  apply firstMatch_of_some
  have hsplit : splitOnceBy chEq ['"'] (h ++ (v ++ ['"'])) = some (h ++ v, []) := by
    rw [splitOnceBy_skip' (e := chEq) (p := ['"']) rfl _ hhq]
    rw [splitOnceBy_skip' (e := chEq) (p := ['"']) rfl _ hvq]
    rw [splitOnceBy_of_dropPre (show dropPreBy chEq ['"'] ['"'] = some [] by
      simp [dropPreBy, chEq_refl])]
    simp
  simp only [tryAttrAt, dropPreBy_self chEq_refl, hsplit]
  rw [if_neg (append_ne_nil_left hhne)]

/-- Replacing the matched width attribute text: its first occurrence is
the attribute itself. -/
theorem replaceWidth_attrs {w u h v : List Char} (R1 : List Char) :
    replaceFirstL ((widthPat ++ (w ++ u)) ++ ['"']) R1
      (wOpenSeg ++ (w ++ (u ++ (hOpenSeg ++ (h ++ (v ++ ['"'])))))) =
      ' ' :: (R1 ++ (hTailSeg ++ (h ++ (v ++ ['"'])))) := by
  unfold replaceFirstL
  rw [show wOpenSeg ++ (w ++ (u ++ (hOpenSeg ++ (h ++ (v ++ ['"']))))) =
    ' ' :: (widthPat ++ (w ++ (u ++ ('"' :: (hTailSeg ++ (h ++ (v ++ ['"'])))))))
    from rfl]
  rw [splitOnceBy_cons_none (show dropPreBy chEq ((widthPat ++ (w ++ u)) ++ ['"'])
    (' ' :: (widthPat ++ (w ++ (u ++ ('"' :: (hTailSeg ++ (h ++ (v ++ ['"'])))))))) =
    none from rfl)]
  have hdrop : dropPreBy chEq ((widthPat ++ (w ++ u)) ++ ['"'])
      (widthPat ++ (w ++ (u ++ ('"' :: (hTailSeg ++ (h ++ (v ++ ['"'])))))))
      = some (hTailSeg ++ (h ++ (v ++ ['"']))) := by
    rw [show (widthPat ++ (w ++ u)) ++ ['"'] = widthPat ++ (w ++ (u ++ ['"'])) by
      simp]
    rw [dropPreBy_append, dropPreBy_self chEq_refl]
    show (dropPreBy chEq (w ++ (u ++ ['"']))
      (w ++ (u ++ ('"' :: (hTailSeg ++ (h ++ (v ++ ['"'])))))) = _)
    rw [dropPreBy_append, dropPreBy_self chEq_refl]
    show (dropPreBy chEq (u ++ ['"'])
      (u ++ ('"' :: (hTailSeg ++ (h ++ (v ++ ['"'])))))) = _
    rw [dropPreBy_append, dropPreBy_self chEq_refl]
    simp [dropPreBy, chEq_refl]
  rw [splitOnceBy_of_dropPre hdrop]
  simp

/-- Replacing the matched height attribute text in the width-rewritten
attribute list (`D` is the printed rescaled width value). -/
theorem replaceHeight_attrs {D u h v : List Char} (R2 : List Char)
    (hD : ∀ c ∈ D, chEq 'h' c = false) (huh : ∀ c ∈ u, chEq 'h' c = false) :
    replaceFirstL ((heightPat ++ (h ++ v)) ++ ['"']) R2
      (' ' :: ((((widthPat ++ D) ++ u) ++ ['"']) ++ (hTailSeg ++ (h ++ (v ++ ['"'])))))
      = ' ' :: ((((widthPat ++ D) ++ u) ++ ['"']) ++ (' ' :: R2)) := by
  unfold replaceFirstL
  rw [show ' ' :: ((((widthPat ++ D) ++ u) ++ ['"']) ++ (hTailSeg ++ (h ++ (v ++ ['"'])))) =
    [' ', 'w', 'i', 'd', 't'] ++
      ('h' :: (['=', '"'] ++ (D ++ (u ++ (['"', ' '] ++
        (heightPat ++ (h ++ (v ++ ['"'])))))))) by
          simp [widthPat, heightPat, hTailSeg_lit]]
  rw [splitOnceBy_skip' (e := chEq) (p := (heightPat ++ (h ++ v)) ++ ['"'])
    (show (heightPat ++ (h ++ v)) ++ ['"'] = 'h' :: (('e' :: ['i', 'g', 'h', 't', '=', '"']) ++ ((h ++ v) ++ ['"'])) by simp [heightPat]) _
    (by decide : ∀ c ∈ [' ', 'w', 'i', 'd', 't'], chEq 'h' c = false)]
  rw [splitOnceBy_cons_none (show dropPreBy chEq ((heightPat ++ (h ++ v)) ++ ['"'])
    ('h' :: (['=', '"'] ++ (D ++ (u ++ (['"', ' '] ++
      (heightPat ++ (h ++ (v ++ ['"'])))))))) = none from rfl)]
  rw [splitOnceBy_skip' (e := chEq) (p := (heightPat ++ (h ++ v)) ++ ['"'])
    (show (heightPat ++ (h ++ v)) ++ ['"'] = 'h' :: (('e' :: ['i', 'g', 'h', 't', '=', '"']) ++ ((h ++ v) ++ ['"'])) by simp [heightPat]) _
    (by decide : ∀ c ∈ ['=', '"'], chEq 'h' c = false)]
  rw [splitOnceBy_skip' (e := chEq) (p := (heightPat ++ (h ++ v)) ++ ['"'])
    (show (heightPat ++ (h ++ v)) ++ ['"'] = 'h' :: (('e' :: ['i', 'g', 'h', 't', '=', '"']) ++ ((h ++ v) ++ ['"'])) by simp [heightPat]) _ hD]
  rw [splitOnceBy_skip' (e := chEq) (p := (heightPat ++ (h ++ v)) ++ ['"'])
    (show (heightPat ++ (h ++ v)) ++ ['"'] = 'h' :: (('e' :: ['i', 'g', 'h', 't', '=', '"']) ++ ((h ++ v) ++ ['"'])) by simp [heightPat]) _ huh]
  rw [splitOnceBy_skip' (e := chEq) (p := (heightPat ++ (h ++ v)) ++ ['"'])
    (show (heightPat ++ (h ++ v)) ++ ['"'] = 'h' :: (('e' :: ['i', 'g', 'h', 't', '=', '"']) ++ ((h ++ v) ++ ['"'])) by simp [heightPat]) _
    (by decide : ∀ c ∈ ['"', ' '], chEq 'h' c = false)]
  have hdrop : dropPreBy chEq ((heightPat ++ (h ++ v)) ++ ['"'])
      (heightPat ++ (h ++ (v ++ ['"']))) = some [] := by
    have h0 := dropPreBy_self chEq_refl (heightPat ++ (h ++ (v ++ ['"']))) []
    rw [List.append_nil] at h0
    rw [show (heightPat ++ (h ++ v)) ++ ['"'] = heightPat ++ (h ++ (v ++ ['"'])) by
      simp]
    exact h0
  rw [splitOnceBy_of_dropPre hdrop]
  simp [widthPat, heightPat, hTailSeg_lit]

/-- The scale rewrite on a canonical vector root
`<svg width="W·U" height="H·V">…`: both dimension attributes are rescaled
in place, two-decimal formatted, units preserved, everything else
untouched. -/
theorem applyScale_family {w u h v : List Char} (rest : List Char) (scale : JsNum)
    (hw : ∀ c ∈ w, isDigitCh c = true) (hwne : w ≠ [])
    (hu : ∀ c ∈ u, goodUnitChar c = true) (hune : u ≠ [])
    (hh : ∀ c ∈ h, isDigitCh c = true) (hhne : h ≠ [])
    (hv : ∀ c ∈ v, goodUnitChar c = true) (hvne : v ≠ [])
    (hs : 0 ≤ scale.num) :
    applyScale scale (String.mk (svgOpenPat ++ (wOpenSeg ++ (w ++ (u ++
        (hOpenSeg ++ (h ++ (v ++ (closeSeg ++ rest)))))))))
      = String.mk (svgOpenPat ++ (wOpenSeg ++
          ((toFixed2 ((⟨(digitsToNat w : Int), 1⟩ : JsNum) * scale)).data ++ (u ++
            (hOpenSeg ++ ((toFixed2 ((⟨(digitsToNat h : Int), 1⟩ : JsNum) * scale)).data ++
              (v ++ (closeSeg ++ rest)))))))) := by
  have hwgt : ∀ c ∈ w, chEq '>' c = false :=
    fun c hc => chEq_false_of_digit (hw c hc) (Or.inr (by decide))
  have hhgt : ∀ c ∈ h, chEq '>' c = false :=
    fun c hc => chEq_false_of_digit (hh c hc) (Or.inr (by decide))
  have hugt : ∀ c ∈ u, chEq '>' c = false :=
    fun c hc => (goodUnitChar_spec (hu c hc)).2.2.2.2.1
  have hvgt : ∀ c ∈ v, chEq '>' c = false :=
    fun c hc => (goodUnitChar_spec (hv c hc)).2.2.2.2.1
  have hwq : ∀ c ∈ w, chEq '"' c = false :=
    fun c hc => chEq_false_of_digit (hw c hc) (Or.inl (by decide))
  have hhq : ∀ c ∈ h, chEq '"' c = false :=
    fun c hc => chEq_false_of_digit (hh c hc) (Or.inl (by decide))
  have huq : ∀ c ∈ u, chEq '"' c = false :=
    fun c hc => (goodUnitChar_spec (hu c hc)).2.2.2.1
  have hvq : ∀ c ∈ v, chEq '"' c = false :=
    fun c hc => (goodUnitChar_spec (hv c hc)).2.2.2.1
  have hwh : ∀ c ∈ w, chEq 'h' c = false :=
    fun c hc => chEq_false_of_digit (hw c hc) (Or.inr (by decide))
  have huh : ∀ c ∈ u, chEq 'h' c = false :=
    fun c hc => (goodUnitChar_spec (hu c hc)).2.2.2.2.2.2.1
  have hD1 : ∀ c ∈ (toFixed2 ((⟨(digitsToNat w : Int), 1⟩ : JsNum) * scale)).data,
      chEq 'h' c = false := by
    intro c hc
    have hnum : 0 ≤ ((⟨(digitsToNat w : Int), 1⟩ : JsNum) * scale).num := by
      show 0 ≤ (digitsToNat w : Int) * scale.num
      exact mul_nonneg (Int.natCast_nonneg _) hs
    rcases toFixed2_chars hnum c hc with hdig | hdot
    · exact chEq_false_of_digit hdig (Or.inr (by decide))
    · subst hdot; decide
  have hattrs := splitGt_attrs (w := w) (u := u) (h := h) (v := v) rest
    hwgt hugt hhgt hvgt
  have hmw := matchWidth_attrs (h := h) (v := v) hwq huq hwne
  have hmh := matchHeight_attrs (w := w) (u := u) hwh huh hhq hvq hhne
  have hpfw := parseFloatQ_digits hw hwne hu
  have hpfh := parseFloatQ_digits hh hhne hv
  have huni1 := unitOf_append hw hu hune
  have huni2 := unitOf_append hh hv hvne
  have hrw := replaceWidth_attrs (w := w) (u := u) (h := h) (v := v)
    ((widthPat ++ (toFixed2 ((⟨(digitsToNat w : Int), 1⟩ : JsNum) * scale)).data ++ u) ++ ['"'])
  have hrh := replaceHeight_attrs (h := h) (v := v)
    ((heightPat ++ (toFixed2 ((⟨(digitsToNat h : Int), 1⟩ : JsNum) * scale)).data ++ v) ++ ['"'])
    hD1 huh
  have hproc : processAttrs scale
      (wOpenSeg ++ (w ++ (u ++ (hOpenSeg ++ (h ++ (v ++ ['"'])))))) =
      ' ' :: ((((widthPat ++ (toFixed2 ((⟨(digitsToNat w : Int), 1⟩ : JsNum) * scale)).data) ++ u) ++ ['"']) ++
        (' ' :: ((heightPat ++ (toFixed2 ((⟨(digitsToNat h : Int), 1⟩ : JsNum) * scale)).data ++ v) ++ ['"']))) := by
    simp only [processAttrs, hmw, hmh, scaleAttr, hpfw, hpfh, huni1, huni2]
    rw [hrw, hrh]
  have hsplit1 : splitOnceBy chEq svgOpenPat
      (svgOpenPat ++ (wOpenSeg ++ (w ++ (u ++ (hOpenSeg ++ (h ++ (v ++ (closeSeg ++ rest)))))))) =
      some ([], wOpenSeg ++ (w ++ (u ++ (hOpenSeg ++ (h ++ (v ++ (closeSeg ++ rest))))))) :=
    splitOnceBy_of_dropPre (dropPreBy_self chEq_refl svgOpenPat _)
  show applyScale scale _ = _
  simp only [applyScale, hsplit1, hattrs, hproc]
  apply congrArg String.mk
  simp [wOpenSeg_lit, hOpenSeg_lit, closeSeg_lit, widthPat, heightPat, svgOpenPat]

/-! ## Claim theorems -/

/-- Occurrence count of a character (used to state that `=` padding is
left intact by the URL-safe substitution). -/
def countEq (a : Char) : List Char → Nat
  | [] => 0
  | c :: t => (if c = a then 1 else 0) + countEq a t

theorem countEq_map {f : Char → Char} (a : Char) (hf : ∀ c, f c = a ↔ c = a) :
    ∀ l, countEq a (l.map f) = countEq a l
  | [] => rfl
  | c :: t => by
    simp only [List.map_cons, countEq, countEq_map a hf t]
    by_cases hc : c = a
    · rw [if_pos hc, if_pos ((hf c).mpr hc)]
    · rw [if_neg hc, if_neg (fun hfc => hc ((hf c).mp hfc))]

/-- C3: the content encoder is the deflate-base64-URL-safe composition,
pure and deterministic; the two unsafe characters are gone from its
output and the `=` padding is untouched by the substitution. -/
theorem c3_encoder_deterministic :
    ∀ (deflate : List Nat → List Nat) (s : String),
      encodeContent deflate s =
        String.mk (replaceChar '/' '_' (replaceChar '+' '-'
          (base64Encode (deflate (utf8Bytes s))))) ∧
      encodeContent deflate s = encodeContent deflate s ∧
      (∀ c ∈ (encodeContent deflate s).data, c ≠ '+' ∧ c ≠ '/') ∧
      countEq '=' (encodeContent deflate s).data =
        countEq '=' (base64Encode (deflate (utf8Bytes s))) := by
  intro deflate s
  refine ⟨rfl, rfl, ?_, ?_⟩
  · intro c hc
    show c ≠ '+' ∧ c ≠ '/'
    simp only [encodeContent, replaceChar, List.map_map] at hc
    rcases List.mem_map.mp hc with ⟨c0, _, rfl⟩
    by_cases h1 : c0 = '+' <;> by_cases h2 : c0 = '/' <;>
      simp [Function.comp, h1, h2]
  · show countEq '=' (replaceChar '/' '_' (replaceChar '+' '-'
      (base64Encode (deflate (utf8Bytes s))))) = _
    unfold replaceChar
    rw [countEq_map '=' (by intro c; constructor <;> intro hc <;>
      [(by_cases h : c = '/' <;> simp_all); simp [hc]])]
    rw [countEq_map '=' (by intro c; constructor <;> intro hc <;>
      [(by_cases h : c = '+' <;> simp_all); simp [hc]])]

/-- An identity stand-in for the compressor in concrete evaluations. -/
def idDeflate : List Nat → List Nat := fun l => l

/-- A stub transport that always returns the same response. -/
def constFetch (r : HttpResponse) : String → Wire := fun _ => Wire.response r

/-- A stub transport that always fails at the network level. -/
def failFetch (msg : String) : String → Wire := fun _ => Wire.networkFailure msg

/-- C2 counterexample: the input `outputFormat := ""` lies outside the
closed format enumeration, yet the link operation does not fail with
`InvalidParams` — the empty string is falsy in JS, is replaced by the
`svg` default, and the transport *is* consulted (a failing stub changes
the outcome). -/
theorem c2_counterexample :
    ("" ∈ validFormats) = False ∧
    generateDiagramUrl idDeflate
      (constFetch ⟨200, some "image/svg+xml", "<svg></svg>"⟩) "mermaid" "hi"
      (some "") = Except.ok "https://kroki.io/mermaid/svg/aGk=" ∧
    generateDiagramUrl idDeflate (failFetch "boom") "mermaid" "hi" (some "") =
      Except.error (networkErr "boom") ∧
    (networkErr "boom").code = ErrCode.InternalError := by
  refine ⟨by simp [validFormats], by decide, by decide, rfl⟩

/-- C2 (amended): for every operation, an input whose diagram type is
outside the closed type set, or whose explicitly provided *non-empty*
output format is outside the closed format set, fails with an
`InvalidParams` error whose outcome is independent of the transport —
no fetch is attempted. -/
theorem c2_validation_rejects (deflate : List Nat → List Nat)
    (fetch fetch' : String → Wire) (typ content outputPath : String)
    (fmt? : Option String) (scale? : Option JsNum)
    (hbad : typ ∉ validTypes ∨ ∃ f, fmt? = some f ∧ f ∉ validFormats ∧ f ≠ "") :
    (∃ m, generateDiagramUrl deflate fetch typ content fmt? =
      Except.error ⟨ErrCode.InvalidParams, m⟩) ∧
    generateDiagramUrl deflate fetch typ content fmt? =
      generateDiagramUrl deflate fetch' typ content fmt? ∧
    (∃ m, downloadDiagram deflate fetch typ content outputPath fmt? scale? =
      Except.error ⟨ErrCode.InvalidParams, m⟩) ∧
    downloadDiagram deflate fetch typ content outputPath fmt? scale? =
      downloadDiagram deflate fetch' typ content outputPath fmt? scale? := by
  rcases hbad with htyp | ⟨f, hfe, hfbad, hfne⟩
  · refine ⟨⟨invalidTypeErr.message, ?_⟩, ?_, ⟨"Failed to download diagram to " ++
      outputPath ++ ": " ++ invalidTypeErr.message, ?_⟩, ?_⟩ <;>
      simp [generateDiagramUrl, downloadDiagram, getDiagramData, htyp,
        invalidTypeErr]
  · have hjs : ∀ b, jsOr (some f) b = f := by
      intro b
      simp [jsOr, jsOrStr, hfne]
    have hdet : determinedFormat (some f) outputPath = f := by
      simp [determinedFormat, hjs]
    by_cases htyp : typ ∈ validTypes
    · refine ⟨⟨invalidFormatErr.message, ?_⟩, ?_, ⟨"Failed to download diagram to " ++
        outputPath ++ ": " ++ invalidFormatErr.message, ?_⟩, ?_⟩ <;>
        simp [generateDiagramUrl, downloadDiagram, getDiagramData, htyp, hfe, hjs,
          hdet, hfbad, invalidFormatErr]
    · refine ⟨⟨invalidTypeErr.message, ?_⟩, ?_, ⟨"Failed to download diagram to " ++
        outputPath ++ ": " ++ invalidTypeErr.message, ?_⟩, ?_⟩ <;>
        simp [generateDiagramUrl, downloadDiagram, getDiagramData, htyp,
          invalidTypeErr]

/-- Two strings with the same character data are equal. -/
theorem strExt {a b : String} (h : a.data = b.data) : a = b := String.ext h

/-- C7: every status in `[200,300)` is a candidate success; every other
status flows into the catch block, producing a transport failure that
carries the status code and, when the body text is present and short, its
trimmed snippet; a 400 becomes a tailored `InvalidParams` syntax-error
message while all other failures keep the generic request-failed framing
under `InternalError`. -/
theorem c7_transport_failure (deflate : List Nat → List Nat)
    (typ content : String) (fmt? : Option String) (scale? : Option JsNum)
    (status : Nat) (ct : Option String) (body : String)
    (htyp : typ ∈ validTypes) (hfmt : jsOr fmt? "svg" ∈ validFormats)
    (hstatus : ¬(200 ≤ status ∧ status < 300)) :
    (∀ s, validateStatus s = true ↔ (200 ≤ s ∧ s < 300)) ∧
    getDiagramData deflate (constFetch ⟨status, ct, body⟩) typ content fmt? scale?
      = Except.error (httpFailure status body) ∧
    (httpFailure 400 body).code = ErrCode.InvalidParams ∧
    (∃ tail, (httpFailure 400 body).message =
      "ダイアグラムの記述にエラーがあるようです (Kroki HTTP 400)。\n" ++ tail) ∧
    (status ≠ 400 → (httpFailure status body).code = ErrCode.InternalError ∧
      ∃ tail, (httpFailure status body).message =
        "Kroki APIリクエスト失敗 (ステータス: " ++ natToStr status ++ ")" ++ tail) ∧
    (body.data ≠ [] ∧ body.data.length < 500 →
      ∃ pre post, (httpFailure status body).message =
        pre ++ String.mk (trimL body.data) ++ post) := by
  have hvs : validateStatus status = false := by
    simp [validateStatus]
    omega
  have h4 : ∀ st, st = 400 → httpFailure st body =
      ⟨ErrCode.InvalidParams,
        "ダイアグラムの記述にエラーがあるようです (Kroki HTTP 400)。\n" ++
          ((if krokiSnippet body ≠ "" then
              "Krokiからの詳細情報:\n---\n" ++ krokiSnippet body ++ "\n---\n"
            else "Krokiから詳細なエラー箇所情報は提供されませんでした。\n") ++
            "記述内容を確認してください。")⟩ := by
    intro st hst
    simp only [httpFailure, if_pos hst]
    refine congrArg (McpErr.mk ErrCode.InvalidParams) ?_
    apply strExt
    simp [apply_ite String.data]
  have h5 : ∀ st, st ≠ 400 → httpFailure st body =
      ⟨ErrCode.InternalError,
        ("Kroki APIリクエスト失敗 (ステータス: " ++ natToStr st ++ ")") ++
          (if krokiSnippet body ≠ "" then
            "\nKrokiからのメッセージ: " ++ krokiSnippet body else "")⟩ := by
    intro st hst
    simp only [httpFailure, if_neg hst]
  refine ⟨fun s => by simp [validateStatus], ?_, ?_, ?_, ?_, ?_⟩
  · simp [getDiagramData, htyp, hfmt, constFetch, hvs]
  · rw [h4 400 rfl]
  · rw [h4 400 rfl]
    exact ⟨_, rfl⟩
  · intro h400
    rw [h5 status h400]
    exact ⟨rfl, _, rfl⟩
  · intro hsnip
    have hkmv : krokiSnippet body = String.mk (trimL body.data) := by
      unfold krokiSnippet
      rw [if_pos hsnip]
    by_cases hkm : krokiSnippet body = ""
    · refine ⟨(httpFailure status body).message, "", ?_⟩
      rw [← hkmv, hkm]
      apply strExt
      simp
    · by_cases h400 : status = 400
      · rw [h4 status h400, if_pos hkm, hkmv]
        refine ⟨"ダイアグラムの記述にエラーがあるようです (Kroki HTTP 400)。\nKrokiからの詳細情報:\n---\n",
          "\n---\n記述内容を確認してください。", ?_⟩
        apply strExt
        simp
      · rw [h5 status h400, if_pos hkm, hkmv]
        refine ⟨"Kroki APIリクエスト失敗 (ステータス: " ++ natToStr status ++ ")" ++
          "\nKrokiからのメッセージ: ", "", ?_⟩
        apply strExt
        simp

/-- C2 witness: the amended validation theorem at the concrete invalid
type `bogus`. -/
theorem c2_validation_rejects_witness :
    ∃ m, generateDiagramUrl idDeflate (failFetch "never") "bogus" "graph" none =
      Except.error ⟨ErrCode.InvalidParams, m⟩ :=
  (c2_validation_rejects idDeflate (failFetch "never") (failFetch "other")
    "bogus" "graph" "/tmp/out.svg" none none (Or.inl (by decide))).1

/-- C7 witness: a stubbed 500 with body `internal error` yields the
generic `InternalError` transport failure carrying status and snippet. -/
theorem c7_transport_failure_witness :
    getDiagramData idDeflate (constFetch ⟨500, some "text/plain", "internal error"⟩)
      "mermaid" "graph" (some "svg") none =
      Except.error ⟨ErrCode.InternalError,
        "Kroki APIリクエスト失敗 (ステータス: 500)\nKrokiからのメッセージ: internal error"⟩ := by
  have h := (c7_transport_failure idDeflate "mermaid" "graph" (some "svg") none
    500 (some "text/plain") "internal error" (by decide) (by decide)
    (by omega)).2.1
  rw [h]
  decide

/-- C1 counterexample: a 2xx body whose first characters start with an
HTML opening tag *case-insensitively* (`<HTML>`) but not case-sensitively
is NOT classified as an HTML error — the pipeline returns it as a
success, because the source's `startsWith('<html')` check is
case-sensitive. -/
theorem c1_counterexample :
    startsWithL "<html".data
      (lowerL (trimL (("<HTML><body>oops</body></HTML>" : String).data.take 100)))
      = true ∧
    getDiagramData idDeflate
      (constFetch ⟨200, some "image/svg+xml", "<HTML><body>oops</body></HTML>"⟩)
      "mermaid" "graph" (some "svg") none =
      Except.ok ⟨"<HTML><body>oops</body></HTML>", "svg"⟩ := by
  refine ⟨by decide, by decide⟩

/-- C1 (amended): for every 2xx response, the classifier throws the HTML
error whenever the lowercased content type contains `text/html`, or the
first ~100 decoded characters, trimmed, start with the case-sensitive
token `<html` or `<!DOCTYPE html`; this check runs before the inline
scan, so a body satisfying both conditions is classified as an HTML
error. -/
theorem c1_html_precedence (deflate : List Nat → List Nat)
    (typ content : String) (fmt? : Option String) (scale? : Option JsNum)
    (status : Nat) (ct : Option String) (body : String)
    (htyp : typ ∈ validTypes) (hfmt : jsOr fmt? "svg" ∈ validFormats)
    (hstatus : validateStatus status = true)
    (hhtml : isHtmlResponse ct body.data = true) :
    getDiagramData deflate (constFetch ⟨status, ct, body⟩) typ content fmt? scale?
      = Except.error ⟨ErrCode.InvalidParams,
          "Krokiエラー: " ++ extractHtmlMessage body.data⟩ ∧
    (∀ ct' body', isHtmlResponse ct' body' =
      (containsBy chEq "text/html".data (lowerL (ct'.getD "").data) ||
       startsWithL "<html".data (trimL (body'.take 100)) ||
       startsWithL "<!DOCTYPE html".data (trimL (body'.take 100)))) := by
  refine ⟨?_, fun ct' body' => rfl⟩
  simp [getDiagramData, htyp, hfmt, constFetch, hstatus, hhtml]

/-- C1 witness: a decode-failure HTML page is classified as an HTML error
with the extracted decode-failure diagnostic, even though it would also
match no inline marker. -/
theorem c1_html_precedence_witness :
    getDiagramData idDeflate
      (constFetch ⟨200, some "text/html",
        "<html><title>Error</title><body>Unable to decode request</body></html>"⟩)
      "mermaid" "graph" (some "svg") none =
      Except.error ⟨ErrCode.InvalidParams,
        "Krokiエラー: デコードエラー: Krokiがソースをデコードできませんでした。記述形式や内容を確認してください。"⟩ := by
  have hmain := (c1_html_precedence idDeflate "mermaid" "graph" (some "svg") none
    200 (some "text/html")
    "<html><title>Error</title><body>Unable to decode request</body></html>"
    (by decide) (by decide) (by decide) (by decide)).1
  rw [hmain]
  decide

theorem strDataNe {s : String} (h : s ≠ "") : s.data ≠ [] :=
  fun hd => h (strExt (by simp [hd]))

/-- C4: a 2xx non-HTML response in `svg` or `base64` format whose body is
a text element tagged `class="error"` (or filled red) followed by
anything is classified as an inline image error whose message is the
element's content, trimmed and entity-decoded; and the decoding maps
`&lt; &gt; &amp;` and `<br/>` as the claim lists. -/
theorem c4_inline_image_error :
    (∀ (deflate : List Nat → List Nat) (typ content fmt : String)
      (scale? : Option JsNum) (status : Nat) (ct : Option String)
      (msg post body : String),
      body.data = textOpenPat ++ (errAttrSeg ++ ('>' :: (msg.data ++ (textClosePat ++ post.data)))) →
      typ ∈ validTypes → (fmt = "svg" ∨ fmt = "base64") →
      validateStatus status = true →
      isHtmlResponse ct body.data = false →
      (∀ c ∈ msg.data, ciEq '<' c = false) → msg ≠ "" →
      getDiagramData deflate (constFetch ⟨status, ct, body⟩)
        typ content (some fmt) scale? =
        Except.error ⟨ErrCode.InvalidParams,
          "ダイアグラム生成エラー (SVG内):\n" ++
            String.mk (decodeEntitiesL (trimL msg.data)) ++
            "\n\n記述内容を確認してください。"⟩) ∧
    (∀ (deflate : List Nat → List Nat) (typ content fmt : String)
      (scale? : Option JsNum) (status : Nat) (ct : Option String)
      (msg post body : String),
      body.data = textOpenPat ++ (redAttrSeg ++ ('>' :: (msg.data ++ (textClosePat ++ post.data)))) →
      typ ∈ validTypes → (fmt = "svg" ∨ fmt = "base64") →
      validateStatus status = true →
      isHtmlResponse ct body.data = false →
      (∀ c ∈ msg.data, ciEq '<' c = false) → msg ≠ "" →
      getDiagramData deflate (constFetch ⟨status, ct, body⟩)
        typ content (some fmt) scale? =
        Except.error ⟨ErrCode.InvalidParams,
          "ダイアグラム生成エラー (SVG内):\n" ++
            String.mk (decodeEntitiesL (trimL msg.data)) ++
            "\n\n記述内容を確認してください。"⟩) ∧
    String.mk (decodeEntitiesL "a&lt;b&gt;c&amp;d<br/>e".data) = "a<b>c&d\ne" := by
  refine ⟨?_, ?_, by decide⟩
  · intro deflate typ content fmt scale? status ct msg post body hbody htyp hfmt
      hstatus hhtml hm hmne
    have hscan : scanInline body.data = some msg.data := by
      rw [hbody]
      exact scanInline_classErr hm
    have hne : body.data ≠ [] := by
      rw [hbody]
      simp
    have hjs : jsOr (some fmt) "svg" = fmt := by
      rcases hfmt with rfl | rfl <;> rfl
    have hval : fmt ∈ validFormats := by
      rcases hfmt with rfl | rfl <;> decide
    have hpick : pickRawError msg.data = msg.data := by
      unfold pickRawError
      rw [if_neg (strDataNe hmne)]
    simp [getDiagramData, htyp, constFetch, hstatus, hhtml, hjs, hval, hfmt,
      hscan, hne, inlineErrorMessage, hpick]
  · intro deflate typ content fmt scale? status ct msg post body hbody htyp hfmt
      hstatus hhtml hm hmne
    have hscan : scanInline body.data = some msg.data := by
      rw [hbody]
      exact scanInline_fillRed hm
    have hne : body.data ≠ [] := by
      rw [hbody]
      simp
    have hjs : jsOr (some fmt) "svg" = fmt := by
      rcases hfmt with rfl | rfl <;> rfl
    have hval : fmt ∈ validFormats := by
      rcases hfmt with rfl | rfl <;> decide
    have hpick : pickRawError msg.data = msg.data := by
      unfold pickRawError
      rw [if_neg (strDataNe hmne)]
    simp [getDiagramData, htyp, constFetch, hstatus, hhtml, hjs, hval, hfmt,
      hscan, hne, inlineErrorMessage, hpick]

/-- C4 witness: the body `<text class="error">bad syntax</text>` yields
the inline image error with decoded message `bad syntax`. -/
theorem c4_inline_image_error_witness :
    getDiagramData idDeflate
      (constFetch ⟨200, some "image/svg+xml", "<text class=\"error\">bad syntax</text>"⟩)
      "mermaid" "graph" (some "svg") none =
      Except.error ⟨ErrCode.InvalidParams,
        "ダイアグラム生成エラー (SVG内):\nbad syntax\n\n記述内容を確認してください。"⟩ := by
  have h := c4_inline_image_error.1 idDeflate "mermaid" "graph" "svg" none 200
    (some "image/svg+xml") "bad syntax" "" "<text class=\"error\">bad syntax</text>"
    (by decide) (by decide) (Or.inl rfl) (by decide) (by decide) (by decide)
    (by decide)
  rw [h]
  decide

/-- C5: the download operation never partially writes: for every input it
either succeeds with the full final byte buffer of the pipeline destined
for `outputPath` (the only write instruction it ever emits), or it
produces no write at all and its error message starts with the
target-path annotation. -/
theorem c5_download_all_or_nothing (deflate : List Nat → List Nat)
    (fetch : String → Wire) (typ content outputPath : String)
    (fmt? : Option String) (scale? : Option JsNum) :
    (∃ d, downloadDiagram deflate fetch typ content outputPath fmt? scale? =
        Except.ok (outputPath, d.data) ∧
      getDiagramData deflate fetch typ content
        (some (determinedFormat fmt? outputPath)) (some (scale?.getD 1)) =
        Except.ok d) ∨
    (∃ e, downloadDiagram deflate fetch typ content outputPath fmt? scale? =
        Except.error e ∧
      startsWithL ("Failed to download diagram to " ++ outputPath ++ ": ").data
        e.message.data = true) := by
  cases hres : getDiagramData deflate fetch typ content
      (some (determinedFormat fmt? outputPath)) (some (scale?.getD 1)) with
  | ok d =>
    left
    exact ⟨d, by simp [downloadDiagram, hres], rfl⟩
  | error e =>
    right
    refine ⟨⟨e.code, "Failed to download diagram to " ++ outputPath ++ ": " ++
      e.message⟩, by simp [downloadDiagram, hres], ?_⟩
    show (dropPreBy chEq ("Failed to download diagram to " ++ outputPath ++ ": ").data
      (("Failed to download diagram to " ++ outputPath ++ ": " ++ e.message).data)).isSome = true
    rw [show ("Failed to download diagram to " ++ outputPath ++ ": " ++ e.message).data =
      ("Failed to download diagram to " ++ outputPath ++ ": ").data ++ e.message.data by
        simp [String.data_append]]
    rw [dropPreBy_self chEq_refl]
    rfl

/-- C6: on a canonical vector root whose width and height carry numeric
values with unit suffixes, scale 2.0 multiplies each numeric portion by
two and reformats it with two decimals, preserving the units; scale 1.0
returns the input bytes unchanged; and `base64` output is never
rescaled, whatever the scale. -/
theorem c6_scale_post_processor :
    (∀ (w u h v rest : List Char),
      (∀ c ∈ w, isDigitCh c = true) → w ≠ [] →
      (∀ c ∈ u, goodUnitChar c = true) → u ≠ [] →
      (∀ c ∈ h, isDigitCh c = true) → h ≠ [] →
      (∀ c ∈ v, goodUnitChar c = true) → v ≠ [] →
      scaleStep 2 "svg" (String.mk (svgOpenPat ++ (wOpenSeg ++ (w ++ (u ++
          (hOpenSeg ++ (h ++ (v ++ (closeSeg ++ rest))))))))) =
        String.mk (svgOpenPat ++ (wOpenSeg ++
          ((toFixed2 ((⟨(digitsToNat w : Int), 1⟩ : JsNum) * 2)).data ++ (u ++
            (hOpenSeg ++ ((toFixed2 ((⟨(digitsToNat h : Int), 1⟩ : JsNum) * 2)).data ++
              (v ++ (closeSeg ++ rest))))))))) ∧
    (∀ (fmt content : String), scaleStep 1 fmt content = content) ∧
    (∀ (scale : JsNum) (content : String), scaleStep scale "base64" content = content) := by
  refine ⟨?_, ?_, ?_⟩
  · intro w u h v rest hw hwne hu hune hh hhne hv hvne
    show (if (1 : JsNum) < 2 ∧ ("svg" : String) = "svg" then _ else _) = _
    rw [if_pos ⟨by decide, rfl⟩]
    exact applyScale_family rest 2 hw hwne hu hune hh hhne hv hvne (by decide)
  · intro fmt content
    show (if (1 : JsNum) < 1 ∧ fmt = "svg" then _ else _) = _
    rw [if_neg (fun hcon => absurd hcon.1 (by decide))]
  · intro scale content
    show (if (1 : JsNum) < scale ∧ ("base64" : String) = "svg" then _ else _) = _
    rw [if_neg (fun hcon => by simpa using hcon.2)]

/-- C6 witness: `<svg width="100px" height="50px">` at scale 2.0 becomes
`width="200.00px" height="100.00px"`. -/
theorem c6_scale_post_processor_witness :
    scaleStep 2 "svg" "<svg width=\"100px\" height=\"50px\"></svg>" =
      "<svg width=\"200.00px\" height=\"100.00px\"></svg>" := by
  have h := c6_scale_post_processor.1 "100".data "px".data "50".data "px".data
    "</svg>".data (by decide) (by decide) (by decide) (by decide) (by decide)
    (by decide) (by decide) (by decide)
  rw [show ("<svg width=\"100px\" height=\"50px\"></svg>" : String) =
    String.mk (svgOpenPat ++ (wOpenSeg ++ ("100".data ++ ("px".data ++
      (hOpenSeg ++ ("50".data ++ ("px".data ++ (closeSeg ++ "</svg>".data))))))))
    from rfl]
  rw [h]
  decide

/-- C8: when the probe pipeline succeeds for mermaid/svg, the link
operation returns the URL ending in `/mermaid/svg/<token>` where the
token is the encoder's output for the content; and for `base64` requests
the probe uses `svg` as a proxy format while the returned link still
reports `base64` in its path. -/
theorem c8_link_generation (deflate : List Nat → List Nat) (fetch : String → Wire) :
    ((∃ d, getDiagramData deflate fetch "mermaid" "graph TD; A-->B;" (some "svg")
        none = Except.ok d) →
      generateDiagramUrl deflate fetch "mermaid" "graph TD; A-->B;" (some "svg") =
        Except.ok ("https://kroki.io/mermaid/svg/" ++
          encodeContent deflate "graph TD; A-->B;")) ∧
    (∀ typ content, typ ∈ validTypes →
      generateDiagramUrl deflate fetch typ content (some "base64") =
        (getDiagramData deflate fetch typ content (some "svg") none).map
          (fun _ => "https://kroki.io/" ++ typ ++ "/base64/" ++
            encodeContent deflate content)) := by
  constructor
  · rintro ⟨d, hd⟩
    have hurl : krokiUrl deflate "mermaid" "svg" "graph TD; A-->B;" =
        "https://kroki.io/mermaid/svg/" ++ encodeContent deflate "graph TD; A-->B;" := by
      apply strExt
      simp [krokiUrl, KROKI_BASE_URL, String.data_append]
    simp [generateDiagramUrl, jsOr, jsOrStr, hd, hurl, Except.map,
      (by decide : ("mermaid" : String) ∈ validTypes),
      (by decide : ("svg" : String) ∈ validFormats)]
  · intro typ content htyp
    have hurl : krokiUrl deflate typ "base64" content =
        "https://kroki.io/" ++ typ ++ "/base64/" ++ encodeContent deflate content := by
      apply strExt
      simp [krokiUrl, KROKI_BASE_URL, String.data_append]
    simp [generateDiagramUrl, jsOr, jsOrStr, htyp, hurl,
      (by decide : ("base64" : String) ∈ validFormats)]

/-- C8 witness: a stubbed clean SVG response produces the expected link
for the canonical mermaid content. -/
theorem c8_link_generation_witness :
    generateDiagramUrl idDeflate
      (constFetch ⟨200, some "image/svg+xml", "<svg></svg>"⟩)
      "mermaid" "graph TD; A-->B;" (some "svg") =
      Except.ok ("https://kroki.io/mermaid/svg/Z3JhcGggVEQ7IEEtLT5COw==") := by
  have h := (c8_link_generation idDeflate
    (constFetch ⟨200, some "image/svg+xml", "<svg></svg>"⟩)).1
    ⟨⟨"<svg></svg>", "svg"⟩, by decide⟩
  rw [h]
  decide

/-- C9 counterexample: at scale 0.5 — inside the claim's shrink range
`[0.1, 1.0)` — the scaling block leaves the dimensions untouched,
although the attribute-rewrite (as run for scale > 1.0) would have
produced `width="50.00px" height="25.00px"`. -/
theorem c9_counterexample :
    ((⟨1, 10⟩ : JsNum) ≤ ⟨1, 2⟩ ∧ (⟨1, 2⟩ : JsNum) < 1) ∧
    scaleStep ⟨1, 2⟩ "svg" "<svg width=\"100px\" height=\"50px\"></svg>" =
      "<svg width=\"100px\" height=\"50px\"></svg>" ∧
    applyScale ⟨1, 2⟩ "<svg width=\"100px\" height=\"50px\"></svg>" =
      "<svg width=\"50.00px\" height=\"25.00px\"></svg>" := by
  refine ⟨by decide, by decide, by decide⟩

/-- C9 (amended): the scaling block is a no-op for every scale that is
not strictly greater than 1.0 — in particular throughout the allowed
shrink range `[0.1, 1.0)`; the attribute rewrite runs only for
scale > 1.0. -/
theorem c9_shrink_is_noop (scale : JsNum) (fmt content : String)
    (h : scale ≤ 1) : scaleStep scale fmt content = content := by
  unfold scaleStep
  rw [if_neg]
  rintro ⟨hlt, -⟩
  have h1 : scale.num * ((1 : JsNum).den : Int) ≤ (1 : JsNum).num * (scale.den : Int) := h
  have h2 : (1 : JsNum).num * (scale.den : Int) < scale.num * ((1 : JsNum).den : Int) := hlt
  omega

/-- C9 witness: the no-op at the concrete shrink scale 0.5. -/
theorem c9_shrink_is_noop_witness :
    scaleStep ⟨1, 2⟩ "svg" "<svg width=\"100px\" height=\"50px\"></svg>" =
      "<svg width=\"100px\" height=\"50px\"></svg>" :=
  c9_shrink_is_noop ⟨1, 2⟩ "svg" "<svg width=\"100px\" height=\"50px\"></svg>"
    (by decide)

/-- C10 counterexample: the inline scan runs before the scale rewrite, and
the rewrite (which strips digits from the attribute value to recover the
unit) can reintroduce a `class="error"` text element; this scan-clean 2xx
body is returned as a success whose final bytes do contain an error
marker. -/
theorem c10_counterexample :
    scanInline ("<svg f=\"x\"<text width=\"1cla1ss=\"error\" q=\"z\">hello</text>" : String).data
      = none ∧
    getDiagramData idDeflate
      (constFetch ⟨200, some "image/svg+xml",
        "<svg f=\"x\"<text width=\"1cla1ss=\"error\" q=\"z\">hello</text>"⟩)
      "mermaid" "graph" (some "svg") (some 2) =
      Except.ok ⟨"<svg f=\"x\"<text width=\"2.00class=\"error\" q=\"z\">hello</text>", "svg"⟩ ∧
    scanInline ("<svg f=\"x\"<text width=\"2.00class=\"error\" q=\"z\">hello</text>" : String).data
      = some "hello".data := by
  refine ⟨by decide, by decide, by decide⟩

/-- C10 (amended): for every successful `svg` or `base64` result, the body
as received from the transport passes the inline-error scan (so a diagram
whose rendered SVG contains a red-filled or error-classed text element is
always rejected, never returned); and whenever no scaling rewrite applies
(scale not above 1.0, or `base64` output) the returned bytes are exactly
that scan-clean body. -/
theorem c10_success_scan_clean (deflate : List Nat → List Nat)
    (resp : HttpResponse) (typ content : String) (fmt? : Option String)
    (scale? : Option JsNum) (d : DiagramData)
    (hok : getDiagramData deflate (constFetch resp) typ content fmt? scale? =
      Except.ok d)
    (hfmt : d.format = "svg" ∨ d.format = "base64") :
    scanInline resp.body.data = none ∧
    ((¬ ((1 : JsNum) < scale?.getD 1) ∨ d.format = "base64") →
      d.data = resp.body ∧ scanInline d.data.data = none) := by
  simp only [getDiagramData, constFetch] at hok
  by_cases htyp : typ ∈ validTypes
  case neg => rw [if_neg htyp] at hok; exact absurd hok (by simp)
  rw [if_pos htyp] at hok
  by_cases hval : jsOr fmt? "svg" ∈ validFormats
  case neg => rw [if_neg hval] at hok; exact absurd hok (by simp)
  rw [if_pos hval] at hok
  by_cases hstat : validateStatus resp.status = true
  case neg =>
    rw [if_neg hstat] at hok
    exact absurd hok (by simp)
  rw [if_pos hstat] at hok
  by_cases hhtml : isHtmlResponse resp.contentType resp.body.data = true
  case pos => rw [if_pos hhtml] at hok; exact absurd hok (by simp)
  rw [if_neg hhtml] at hok
  by_cases hbranch : (jsOr fmt? "svg" = "svg" ∨ jsOr fmt? "svg" = "base64") ∧
      resp.body.data ≠ []
  · rw [if_pos hbranch] at hok
    cases hscan : scanInline resp.body.data with
    | some g => rw [hscan] at hok; exact absurd hok (by simp)
    | none =>
      rw [hscan] at hok
      simp only [Except.ok.injEq] at hok
      refine ⟨rfl, fun hnos => ?_⟩
      have hdata : d.data = scaleStep (scale?.getD 1) (jsOr fmt? "svg") resp.body := by
        rw [← hok]
      have hdfmt : d.format = jsOr fmt? "svg" := by rw [← hok]
      rcases hnos with hnos | hnos
      · have : scaleStep (scale?.getD 1) (jsOr fmt? "svg") resp.body = resp.body := by
          unfold scaleStep
          rw [if_neg (fun hcon => hnos hcon.1)]
        rw [hdata, this]
        exact ⟨rfl, hscan⟩
      · have hb64 : jsOr fmt? "svg" = "base64" := by rw [← hdfmt]; exact hnos
        have : scaleStep (scale?.getD 1) (jsOr fmt? "svg") resp.body = resp.body := by
          unfold scaleStep
          rw [if_neg (fun hcon => by rw [hb64] at hcon; exact absurd hcon.2 (by decide))]
        rw [hdata, this]
        exact ⟨rfl, hscan⟩
  · rw [if_neg hbranch] at hok
    simp only [Except.ok.injEq] at hok
    have hdfmt : d.format = jsOr fmt? "svg" := by rw [← hok]
    have hdata : d.data = resp.body := by rw [← hok]
    have hnil : resp.body.data = [] := by
      by_contra hne
      exact hbranch ⟨by rw [← hdfmt]; exact hfmt, hne⟩
    have hscan : scanInline resp.body.data = none := by
      rw [hnil]
      rfl
    refine ⟨hscan, fun _ => ⟨hdata, ?_⟩⟩
    rw [hdata]
    exact hscan

/-- C10 witness: a clean stubbed SVG success at base64 output returns the
scan-clean body unchanged. -/
theorem c10_success_scan_clean_witness :
    scanInline ("<svg></svg>" : String).data = none ∧
    ("<svg></svg>" : String) = "<svg></svg>" := by
  have h := c10_success_scan_clean idDeflate ⟨200, some "image/svg+xml", "<svg></svg>"⟩
    "mermaid" "graph" (some "base64") (some 2) ⟨"<svg></svg>", "base64"⟩
    (by decide) (Or.inr rfl)
  exact ⟨h.1, ((h.2 (Or.inr rfl)).1.symm).trans rfl⟩

end KrokiSpec
